import Mathlib

/-!
# bench.c: timing harness for FFTW plan construction and execution

A shallow embedding of `src/bench.c` (functions `sclock`, `bench_complex`,
`bench_real`, `main`) together with the properties of its timing protocol.

Conventions of the embedding.

* `clock_t` is the signed 64-bit `long` of the LP64 ABI.  Values are integers
  and every arithmetic result stored in a `clock_t` is reduced by `wrap64`
  (two's complement).
* The outside world (monotonic clock, `drand48`, the FFTW engine, `stdout`) is
  an explicit `World` value threaded through the code.  Every call into the
  clock or the engine appends one `Event` to `World.trace`, in call order.
* The reading that `clock_gettime` delivers is a function of the events that
  happened before the call (`Clock`); a simulated clock that is advanced by the
  cost of engine calls and a fixed sequence of readings are both instances.
* `double` values are modelled by exact rationals.
* A local declared without initialiser (`time_ini`) starts with an arbitrary
  value, a parameter `g` of the code that reads it.
-/

namespace FftwBench

/-! ## clock_t arithmetic -/

/-- Smallest value of the signed 64-bit `clock_t`. -/
def CLOCK_T_MIN : Int := -9223372036854775808

/-- Largest value of the signed 64-bit `clock_t`. -/
def CLOCK_T_MAX : Int := 9223372036854775807

/-- Reduction of an integer to the signed 64-bit range (two's complement). -/
def wrap64 (x : Int) : Int :=
  (x + 9223372036854775808) % 18446744073709551616 - 9223372036854775808

/-- Result of `clock_gettime`: the fields of `struct timespec`. -/
structure Timespec where
  tv_sec : Int
  tv_nsec : Int
deriving DecidableEq, Repr

/-- The return expression of `sclock` (bench.c:13):
`ts.tv_sec * 1000000000 + ts.tv_nsec`, computed in `clock_t`. -/
def sclock_value (ts : Timespec) : Int :=
  wrap64 (wrap64 (ts.tv_sec * 1000000000) + ts.tv_nsec)

/-- The running-average assignment of bench.c:42-43 and 74-75:
`acc = (i*acc + sample)/(i+1)` on `clock_t` operands; `/` is C integer
division, which truncates toward zero. -/
def avg_update (i : Nat) (acc sample : Int) : Int :=
  wrap64 (Int.tdiv (wrap64 (wrap64 ((i : Int) * acc) + sample)) ((i : Int) + 1))

/-- The accumulator after feeding `samples` in order through `avg_update`,
the first of them at trial index `i`, starting from the accumulator `acc`. -/
def run_avg : Nat → Int → List Int → Int
  | _, acc, [] => acc
  | i, acc, s :: rest => run_avg (i + 1) (avg_update i acc s) rest

/-! ## The outside world -/

/-- One call into the clock, libc or the FFTW engine, with the handles it
takes or returns. -/
inductive Event where
  | clock_gettime
  | fftw_alloc_complex (n ptr : Nat)
  | fftw_alloc_real (n ptr : Nat)
  | memcpy (dst bytes : Nat)
  | fftw_plan_dft_1d (n inp out plan : Nat)
  | fftw_plan_dft_r2c_1d (n inp out plan : Nat)
  | fftw_execute (plan : Nat)
  | fftw_destroy_plan (plan : Nat)
  | fftw_free (ptr : Nat)
deriving DecidableEq, Repr

/-- One line written by `printf`: the arguments of the format
`n=%u, <kind>, init: %fms, exec: %fms\n`. -/
structure Line where
  n : Nat
  kind : String
  init : ℚ
  exec : ℚ
deriving DecidableEq

/-- State of the environment of the process. -/
structure World where
  /-- Calls made so far, oldest first. -/
  trace : List Event
  /-- Next handle the engine hands out. A handle names one allocation or one
  plan (the object, not its address): every allocation and every plan
  construction returns a new one. -/
  next : Nat
  /-- Number of `drand48` calls made so far. -/
  draws : Nat
  /-- Lines written to standard output, oldest first. -/
  out : List Line

/-- The empty environment in which the process starts. -/
def World.start : World := { trace := [], next := 0, draws := 0, out := [] }

/-- The monotonic clock: the `timespec` a call of `clock_gettime` delivers,
given the calls made before it. -/
abbrev Clock := List Event → Timespec

/-- The pseudo-random generator: the result of the `k`-th call of `drand48`. -/
abbrev Rand := Nat → ℚ

/-- Append one event to the trace. -/
def World.emit (w : World) (e : Event) : World := { w with trace := w.trace ++ [e] }

/-- Function `sclock` (bench.c:8-14). -/
def sclock (clk : Clock) (w : World) : Int × World :=
  (sclock_value (clk w.trace), w.emit Event.clock_gettime)

/-- Engine call `fftw_alloc_complex(n)`: a fresh buffer. -/
def fftw_alloc_complex (n : Nat) (w : World) : Nat × World :=
  (w.next, { w.emit (Event.fftw_alloc_complex n w.next) with next := w.next + 1 })

/-- Engine call `fftw_alloc_real(n)`: a fresh buffer. -/
def fftw_alloc_real (n : Nat) (w : World) : Nat × World :=
  (w.next, { w.emit (Event.fftw_alloc_real n w.next) with next := w.next + 1 })

/-- Library call `memcpy(dst, input, bytes)`. -/
def memcpy (dst bytes : Nat) (w : World) : World := w.emit (Event.memcpy dst bytes)

/-- Engine call `fftw_plan_dft_1d(n, in, out, FFTW_FORWARD, FFTW_ESTIMATE)`: a
fresh plan. -/
def fftw_plan_dft_1d (n inp out : Nat) (w : World) : Nat × World :=
  (w.next, { w.emit (Event.fftw_plan_dft_1d n inp out w.next) with next := w.next + 1 })

/-- Engine call `fftw_plan_dft_r2c_1d(n, in, out, FFTW_ESTIMATE)`: a fresh
plan. -/
def fftw_plan_dft_r2c_1d (n inp out : Nat) (w : World) : Nat × World :=
  (w.next, { w.emit (Event.fftw_plan_dft_r2c_1d n inp out w.next) with next := w.next + 1 })

/-- Engine call `fftw_execute(p)`. -/
def fftw_execute (p : Nat) (w : World) : World := w.emit (Event.fftw_execute p)

/-- Engine call `fftw_destroy_plan(p)`. -/
def fftw_destroy_plan (p : Nat) (w : World) : World := w.emit (Event.fftw_destroy_plan p)

/-- Engine call `fftw_free(ptr)`. -/
def fftw_free (ptr : Nat) (w : World) : World := w.emit (Event.fftw_free ptr)

/-- Library call `printf` with the four arguments of the report format. -/
def printf (l : Line) (w : World) : World := { w with out := w.out ++ [l] }

/-! ## The benchmark driver -/

/-- The iterations `i`, `i+1`, ..., `i+count-1` of a loop body, in order. -/
def for_from {σ : Type} (body : Nat → σ → σ) : Nat → Nat → σ → σ
  | _, 0, s => s
  | i, count + 1, s => for_from body (i + 1) count (body i s)

/-- A C `for (i = 0; i < n; i++)` loop: `body 0`, then `body 1`, ... -/
def for_loop {σ : Type} (body : Nat → σ → σ) (n : Nat) (s : σ) : σ :=
  for_from body 0 n s

/-- The three clock readings of one trial and the environment after it. -/
structure Trial where
  w : World
  start : Int
  t1 : Int
  t2 : Int

/-- Loop-carried state of the trial loop: the environment and the two locals
`time_ini`, `time_exec`. -/
structure Timers where
  w : World
  time_ini : Int
  time_exec : Int

/-- Lines 30-41 of `bench_complex`: one trial up to the release of its
buffers. `sizeof(double[2])` is 16. -/
def trial_complex (clk : Clock) (N : Nat) (w : World) : Trial :=
  let (start, w) := sclock clk w
  let (inp, w) := fftw_alloc_complex N w
  let w := memcpy inp (N * 16) w
  let (out, w) := fftw_alloc_complex N w
  let (p, w) := fftw_plan_dft_1d N inp out w
  let (t1, w) := sclock clk w
  let w := fftw_execute p w
  let (t2, w) := sclock clk w
  let w := fftw_destroy_plan p w
  let w := fftw_free inp w
  let w := fftw_free out w
  { w := w, start := start, t1 := t1, t2 := t2 }

/-- Lines 62-73 of `bench_real`: one trial up to the release of its buffers.
`sizeof(double)` is 8. -/
def trial_real (clk : Clock) (N : Nat) (w : World) : Trial :=
  let (start, w) := sclock clk w
  let (inp, w) := fftw_alloc_real N w
  let w := memcpy inp (N * 8) w
  let (out, w) := fftw_alloc_complex (N / 2 + 1) w
  let (p, w) := fftw_plan_dft_r2c_1d N inp out w
  let (t1, w) := sclock clk w
  let w := fftw_execute p w
  let (t2, w) := sclock clk w
  let w := fftw_destroy_plan p w
  let w := fftw_free inp w
  let w := fftw_free out w
  { w := w, start := start, t1 := t1, t2 := t2 }

/-- The expression `t1-start` of bench.c:42 and 74, a `clock_t` difference. -/
def Trial.ini_sample (r : Trial) : Int := wrap64 (r.t1 - r.start)

/-- The expression `t2-t1` of bench.c:43 and 75, a `clock_t` difference. -/
def Trial.exec_sample (r : Trial) : Int := wrap64 (r.t2 - r.t1)

/-- The two assignments that close the loop body (bench.c:42-43, 74-75). -/
def update_timers (i : Nat) (s : Timers) (r : Trial) : Timers :=
  { w := r.w
    time_ini := avg_update i s.time_ini r.ini_sample
    time_exec := avg_update i s.time_exec r.exec_sample }

/-- Body of the trial loop of `bench_complex` (bench.c:26-44), trial `i`. -/
def body_complex (clk : Clock) (N : Nat) (i : Nat) (s : Timers) : Timers :=
  update_timers i s (trial_complex clk N s.w)

/-- Body of the trial loop of `bench_real` (bench.c:57-76), trial `i`. -/
def body_real (clk : Clock) (N : Nat) (i : Nat) (s : Timers) : Timers :=
  update_timers i s (trial_real clk N s.w)

/-- An input array: the `double` slots of the variable-length array in
declaration order (row-major for `input[N][2]`); `none` is a slot that has not
been assigned. -/
abbrev Slots := List (Option ℚ)

/-- Store to the flat slot `idx`; a store past the end leaves the array
itself unchanged. -/
def store (a : Slots) (idx : Nat) (v : ℚ) : Slots := a.set idx (some v)

/-- Environment and array during a generation loop. -/
structure Filling where
  w : World
  input : Slots

/-- The expression `200*(drand48() - 0.5)`: consumes one draw. -/
def draw_sample (rnd : Rand) (w : World) : ℚ × World :=
  (200 * (rnd w.draws - 1 / 2), { w with draws := w.draws + 1 })

/-- Generation loop of `bench_complex` (bench.c:21-24). `input` is
`double input[N][2]`, so `input[a][b]` is the flat slot `2*a + b`: the two
stores go to the slots `2*0 + i` and `2*1 + i`. -/
def fill_complex (rnd : Rand) (N : Nat) (w : World) : Filling :=
  for_loop (fun i s =>
      let (v0, w) := draw_sample rnd s.w
      let input := store s.input (2 * 0 + i) v0
      let (v1, w) := draw_sample rnd w
      let input := store input (2 * 1 + i) v1
      { w := w, input := input })
    N { w := w, input := List.replicate (2 * N) none }

/-- Generation loop of `bench_real` (bench.c:53-55) on `double input[N]`. -/
def fill_real (rnd : Rand) (N : Nat) (w : World) : Filling :=
  for_loop (fun i s =>
      let (v, w) := draw_sample rnd s.w
      { w := w, input := store s.input i v })
    N { w := w, input := List.replicate N none }

/-- The trial loop of `bench_complex`: 1000 iterations. `time_ini` is declared
without initialiser, so it starts with an indeterminate value `g`;
`time_exec` starts at 0. -/
def loop_complex (clk : Clock) (g : Int) (N : Nat) (w : World) : Timers :=
  for_loop (body_complex clk N) 1000 { w := w, time_ini := g, time_exec := 0 }

/-- The trial loop of `bench_real`: 1000 iterations, same locals. -/
def loop_real (clk : Clock) (g : Int) (N : Nat) (w : World) : Timers :=
  for_loop (body_real clk N) 1000 { w := w, time_ini := g, time_exec := 0 }

/-- The value passed to `%f`: `t/1000.0`, as an exact quotient (the rounding
of `double` is not modelled). -/
def reported (t : Int) : ℚ := (t : ℚ) / 1000

/-- Function `bench_complex` (bench.c:16-47). -/
def bench_complex (clk : Clock) (rnd : Rand) (g : Int) (N : Nat) (w : World) : World :=
  let f := fill_complex rnd N w
  let s := loop_complex clk g N f.w
  printf { n := N, kind := "complex", init := reported s.time_ini,
           exec := reported s.time_exec } s.w

/-- Function `bench_real` (bench.c:48-78). -/
def bench_real (clk : Clock) (rnd : Rand) (g : Int) (N : Nat) (w : World) : World :=
  let f := fill_real rnd N w
  let s := loop_real clk g N f.w
  printf { n := N, kind := "real", init := reported s.time_ini,
           exec := reported s.time_exec } s.w

/-- Function `main` (bench.c:80-86): the exit status and the final
environment. `g` gives the indeterminate initial `time_ini` of each of the
four calls. -/
def main (clk : Clock) (rnd : Rand) (g : Fin 4 → Int) : Int × World :=
  let w := bench_complex clk rnd (g 0) 100 World.start
  let w := bench_complex clk rnd (g 1) 10000 w
  let w := bench_real clk rnd (g 2) 100 w
  let w := bench_real clk rnd (g 3) 10000 w
  (0, w)

/-! ## Observations on runs -/

/-- The environment after the first `k` trials of a loop whose trials are
`trial`, started in `w`. -/
def world_after (trial : World → Trial) : Nat → World → World
  | 0, w => w
  | k + 1, w => (trial (world_after trial k w)).w

/-- The first `k` trials of a loop, in order. -/
def trials (trial : World → Trial) (k : Nat) (w : World) : List Trial :=
  (List.range k).map (fun i => trial (world_after trial i w))

/-- The events that `w2` has after those of `w1`. -/
def events_since (w1 w2 : World) : List Event := w2.trace.drop w1.trace.length

/-- Buffer allocations. -/
def Event.is_alloc : Event → Bool
  | Event.fftw_alloc_complex _ _ => true
  | Event.fftw_alloc_real _ _ => true
  | _ => false

/-- Buffer releases. -/
def Event.is_free : Event → Bool
  | Event.fftw_free _ => true
  | _ => false

/-- Plan constructions. -/
def Event.is_plan : Event → Bool
  | Event.fftw_plan_dft_1d _ _ _ _ => true
  | Event.fftw_plan_dft_r2c_1d _ _ _ _ => true
  | _ => false

/-- Plan executions. -/
def Event.is_execute : Event → Bool
  | Event.fftw_execute _ => true
  | _ => false

/-- Plan destructions. -/
def Event.is_destroy : Event → Bool
  | Event.fftw_destroy_plan _ => true
  | _ => false

/-- Clock readings. -/
def Event.is_clock : Event → Bool
  | Event.clock_gettime => true
  | _ => false

/-- Effect of one event on the list of live buffers. -/
def live_buffers_step (l : List Nat) : Event → List Nat
  | Event.fftw_alloc_complex _ p => l ++ [p]
  | Event.fftw_alloc_real _ p => l ++ [p]
  | Event.fftw_free p => l.erase p
  | _ => l

/-- Effect of one event on the list of live plans. -/
def live_plans_step (l : List Nat) : Event → List Nat
  | Event.fftw_plan_dft_1d _ _ _ p => l ++ [p]
  | Event.fftw_plan_dft_r2c_1d _ _ _ p => l ++ [p]
  | Event.fftw_destroy_plan p => l.erase p
  | _ => l

/-- Buffers allocated and not yet released after a trace. -/
def live_buffers (t : List Event) : List Nat := t.foldl live_buffers_step []

/-- Plans created and not yet destroyed after a trace. -/
def live_plans (t : List Event) : List Nat := t.foldl live_plans_step []

/-- The `timespec` of a count of nanoseconds. -/
def timespec_of_ns (t : Int) : Timespec :=
  { tv_sec := t / 1000000000, tv_nsec := t % 1000000000 }

/-- An instrumented clock that starts at `t0` nanoseconds and is advanced by
`cost e` nanoseconds by every call `e`. -/
def cost_clock (t0 : Int) (cost : Event → Nat) : Clock :=
  fun h => timespec_of_ns (t0 + ((h.map cost).sum : Nat))

/-- An instrumented clock whose `k`-th reading (from 0) is `r k` nanoseconds. -/
def reading_clock (r : Nat → Int) : Clock :=
  fun h => timespec_of_ns (r (h.countP Event.is_clock))

/-- Readings that stay at the smallest `clock_t` value for the first 2998
calls of the clock and are 0 from then on: non-decreasing, and the step falls
between `start` and `t1` of the last trial of the first experiment. -/
def late_jump (k : Nat) : Int := if k < 2998 then -9223372036854775808 else 0

/-- The instrumented engine in which plan construction takes 1,000,000 ns,
execution 500,000 ns and every other call no time. -/
def scenario_cost : Event → Nat
  | Event.fftw_plan_dft_1d _ _ _ _ => 1000000
  | Event.fftw_plan_dft_r2c_1d _ _ _ _ => 1000000
  | Event.fftw_execute _ => 500000
  | _ => 0

/-- Arithmetic mean of integer samples. -/
def mean (samples : List Int) : ℚ := (samples.sum : ℚ) / (samples.length : ℚ)

/-- Agreement of `x` with `y` within relative tolerance `1e-9`. -/
def within_rel_tol (x y : ℚ) : Prop := |x - y| ≤ |y| / 1000000000

instance (x y : ℚ) : Decidable (within_rel_tol x y) := by
  unfold within_rel_tol
  infer_instance

/-- Decimal digits of `m`, left-padded with zeros to `width` characters. -/
def pad_digits (width m : Nat) : String :=
  let d := Nat.toDigits 10 m
  String.mk (List.replicate (width - d.length) '0' ++ d)

/-- The text `printf` produces for `%f`: the value rounded to six decimals,
sign, integer part, point and six digits. -/
def fmt_f (q : ℚ) : String :=
  let m : Nat := (2 * q.num.natAbs * 1000000 + q.den) / (2 * q.den)
  (if q.num < 0 then "-" else "") ++ pad_digits 1 (m / 1000000) ++ "." ++ pad_digits 6 (m % 1000000)

/-- The text `printf` produces for `%u`. -/
def fmt_u (n : Nat) : String := String.mk (Nat.toDigits 10 n)

/-- The text of one report line. -/
def render (l : Line) : String :=
  "n=" ++ fmt_u l.n ++ ", " ++ l.kind ++ ", init: " ++ fmt_f l.init ++ "ms, exec: "
    ++ fmt_f l.exec ++ "ms\n"

/-- The buffer an allocation returns. -/
def Event.allocated : Event → Option Nat
  | Event.fftw_alloc_complex _ p => some p
  | Event.fftw_alloc_real _ p => some p
  | _ => none

/-- The plan a plan construction returns. -/
def Event.planned : Event → Option Nat
  | Event.fftw_plan_dft_1d _ _ _ p => some p
  | Event.fftw_plan_dft_r2c_1d _ _ _ p => some p
  | _ => none

/-- A stretch of events that leaks nothing: it allocates exactly two buffers
and releases exactly two, creates exactly one plan and destroys exactly one,
every release and every destruction targets an object created in the stretch,
and no buffer or plan of the stretch is live at its end. -/
def balanced (seg : List Event) : Prop :=
  seg.countP Event.is_alloc = 2 ∧ seg.countP Event.is_free = 2 ∧
  seg.countP Event.is_plan = 1 ∧ seg.countP Event.is_destroy = 1 ∧
  (∀ p, Event.fftw_free p ∈ seg → p ∈ seg.filterMap Event.allocated) ∧
  (∀ p, Event.fftw_destroy_plan p ∈ seg → p ∈ seg.filterMap Event.planned) ∧
  live_buffers seg = [] ∧ live_plans seg = []

/-- What the trials of both benchmarks have in common: `start` is read first,
`t1` after a stretch `A` of calls, `t2` after a further stretch `B`, and the
trial ends after a last stretch `C`; nothing is printed. -/
def trial_shape (clk : Clock) (T : World → Trial) : Prop :=
  ∀ w : World, ∃ A B C : List Event,
    (T w).start = sclock_value (clk w.trace) ∧
    (T w).t1 = sclock_value (clk (w.trace ++ A)) ∧
    (T w).t2 = sclock_value (clk (w.trace ++ A ++ B)) ∧
    (T w).w.trace = w.trace ++ A ++ B ++ C ∧
    (T w).w.out = w.out

/-! ### Facts about `wrap64` and `avg_update` -/

theorem wrap64_of_range {x : Int} (h1 : CLOCK_T_MIN ≤ x) (h2 : x ≤ CLOCK_T_MAX) :
    wrap64 x = x := by
  unfold CLOCK_T_MIN at h1
  unfold CLOCK_T_MAX at h2
  unfold wrap64
  rw [Int.emod_eq_of_lt (by omega) (by omega)]
  omega

theorem wrap64_range (x : Int) : CLOCK_T_MIN ≤ wrap64 x ∧ wrap64 x ≤ CLOCK_T_MAX := by
  unfold CLOCK_T_MIN CLOCK_T_MAX wrap64
  omega

theorem wrap64_add_wrap64 (a b : Int) : wrap64 (wrap64 a + b) = wrap64 (a + b) := by
  unfold wrap64
  omega

theorem wrap64_zero : wrap64 0 = 0 := by decide

/-- Trial 0 discards the previous accumulator: `0*acc` is `0`. -/
theorem avg_update_zero (acc s : Int) : avg_update 0 acc s = wrap64 s := by
  unfold avg_update
  simp only [Nat.cast_zero, zero_mul, zero_add, wrap64_zero, Int.tdiv_one]
  rw [wrap64_of_range (wrap64_range s).1 (wrap64_range s).2]

/-- Without overflow the update is the floor of `(i*acc + s)/(i+1)`. -/
theorem avg_update_of_range (i : Nat) (acc s : Int) (hacc : 0 ≤ acc) (hs : 0 ≤ s)
    (hb : (i : Int) * acc + s ≤ CLOCK_T_MAX) :
    avg_update i acc s = ((i : Int) * acc + s) / ((i : Int) + 1) := by
  have hi : (0 : Int) ≤ (i : Int) := Int.ofNat_nonneg i
  have hP : 0 ≤ (i : Int) * acc := mul_nonneg hi hacc
  have hmin : CLOCK_T_MIN ≤ 0 := by decide
  unfold avg_update
  rw [wrap64_add_wrap64, wrap64_of_range (by omega) hb,
    Int.tdiv_eq_ediv (by omega) (by omega)]
  have hq0 : 0 ≤ ((i : Int) * acc + s) / ((i : Int) + 1) :=
    Int.ediv_nonneg (by omega) (by omega)
  have hq1 : ((i : Int) * acc + s) / ((i : Int) + 1) ≤ (i : Int) * acc + s :=
    Int.ediv_le_self _ (by omega)
  exact wrap64_of_range (by omega) (by omega)

theorem run_avg_append (i : Nat) (acc : Int) (xs : List Int) (s : Int) :
    run_avg i acc (xs ++ [s]) = avg_update (i + xs.length) (run_avg i acc xs) s := by
  induction xs generalizing i acc with
  | nil => simp [run_avg]
  | cons x xs ih =>
    show run_avg (i + 1) (avg_update i acc x) (xs ++ [s]) = _
    rw [ih, List.length_cons]
    show _ = avg_update (i + (xs.length + 1)) (run_avg (i + 1) (avg_update i acc x) xs) s
    congr 1
    omega

/-- One overflow-free update keeps the accumulator below the mean and bounds
the accumulated truncation. `S` is the sum of the samples fed before. -/
theorem avg_update_step (i : Nat) (acc s S : Int) (hacc : 0 ≤ acc) (hs : 0 ≤ s)
    (h1 : (i : Int) * acc ≤ S) (h2 : 2 * (S - (i : Int) * acc) ≤ (i : Int) * ((i : Int) - 1))
    (hS : S + s ≤ CLOCK_T_MAX) :
    0 ≤ avg_update i acc s ∧
    ((i : Int) + 1) * avg_update i acc s ≤ S + s ∧
    2 * (S + s - ((i : Int) + 1) * avg_update i acc s) ≤ ((i : Int) + 1) * (i : Int) ∧
    (∀ m : Int, m ≤ acc → m ≤ s → m ≤ avg_update i acc s) ∧
    (∀ M : Int, acc ≤ M → s ≤ M → avg_update i acc s ≤ M) := by
  have hi : (0 : Int) ≤ (i : Int) := Int.ofNat_nonneg i
  have hpos : (0 : Int) < (i : Int) + 1 := by omega
  rw [avg_update_of_range i acc s hacc hs (by omega)]
  have hdm := Int.emod_add_ediv ((i : Int) * acc + s) ((i : Int) + 1)
  have hr0 := Int.emod_nonneg ((i : Int) * acc + s) (ne_of_gt hpos)
  have hr1 := Int.emod_lt_of_pos ((i : Int) * acc + s) hpos
  have hP : 0 ≤ (i : Int) * acc := mul_nonneg hi hacc
  refine ⟨Int.ediv_nonneg (by omega) (by omega), by omega, ?_, ?_, ?_⟩
  · have e : ((i : Int) + 1) * (i : Int) = (i : Int) * ((i : Int) - 1) + 2 * (i : Int) := by ring
    omega
  · intro m hm1 hm2
    rw [Int.le_ediv_iff_mul_le hpos]
    have : (i : Int) * m ≤ (i : Int) * acc := mul_le_mul_of_nonneg_left hm1 hi
    have e : m * ((i : Int) + 1) = (i : Int) * m + m := by ring
    omega
  · intro M hM1 hM2
    have : (i : Int) * acc ≤ (i : Int) * M := mul_le_mul_of_nonneg_left hM1 hi
    have hlt : ((i : Int) * acc + s) / ((i : Int) + 1) < M + 1 := by
      rw [Int.ediv_lt_iff_lt_mul hpos]
      have e : (M + 1) * ((i : Int) + 1) = (i : Int) * M + M + (i : Int) + 1 := by ring
      omega
    omega

/-- Invariant of the running average over a whole run that starts at trial 0
with an arbitrary previous accumulator `g`. -/
theorem run_avg_inv (g : Int) (samples : List Int) (hne : samples ≠ [])
    (hpos : ∀ s ∈ samples, 0 ≤ s) (hsum : samples.sum ≤ CLOCK_T_MAX) :
    0 ≤ run_avg 0 g samples ∧
    (samples.length : Int) * run_avg 0 g samples ≤ samples.sum ∧
    2 * (samples.sum - (samples.length : Int) * run_avg 0 g samples)
      ≤ (samples.length : Int) * ((samples.length : Int) - 1) ∧
    (∀ m : Int, (∀ s ∈ samples, m ≤ s) → m ≤ run_avg 0 g samples) ∧
    (∀ M : Int, (∀ s ∈ samples, s ≤ M) → run_avg 0 g samples ≤ M) := by
  induction samples using List.reverseRecOn with
  | nil => exact absurd rfl hne
  | append_singleton xs s ih =>
    have hs : 0 ≤ s := hpos s (by simp)
    have hxs : ∀ x ∈ xs, 0 ≤ x := fun x hx => hpos x (by simp [hx])
    have hxsum : 0 ≤ xs.sum := List.sum_nonneg hxs
    rw [List.sum_append, List.sum_singleton] at hsum
    rw [run_avg_append, List.sum_append, List.sum_singleton, List.length_append,
      List.length_singleton, Nat.zero_add]
    push_cast
    by_cases hx : xs = []
    · subst hx
      have hmin : CLOCK_T_MIN ≤ 0 := by decide
      simp only [List.sum_nil, zero_add] at hsum
      simp only [List.length_nil, run_avg, avg_update_zero, Nat.cast_zero, List.sum_nil,
        zero_add, List.nil_append, List.mem_singleton, forall_eq]
      rw [wrap64_of_range (by omega) hsum]
      refine ⟨hs, by omega, by omega, fun m hm => hm, fun M hM => hM⟩
    · obtain ⟨a0, a1, a2, a3, a4⟩ := ih hx hxs (by omega)
      obtain ⟨b0, b1, b2, b3, b4⟩ :=
        avg_update_step xs.length (run_avg 0 g xs) s xs.sum a0 hs a1 a2 hsum
      refine ⟨b0, b1, ?_, ?_, ?_⟩
      · have e : ((xs.length : Int) + 1) * ((xs.length : Int) + 1 - 1)
            = ((xs.length : Int) + 1) * (xs.length : Int) := by ring
        rw [e]
        exact b2
      · intro m hm
        exact b3 m (a3 m (fun x hx => hm x (by simp [hx]))) (hm s (by simp))
      · intro M hM
        exact b4 M (a4 M (fun x hx => hM x (by simp [hx]))) (hM s (by simp))

/-! ### Loops -/

theorem for_from_succ {σ : Type} (body : Nat → σ → σ) (i k : Nat) (s : σ) :
    for_from body i (k + 1) s = body (i + k) (for_from body i k s) := by
  induction k generalizing i s with
  | zero => rfl
  | succ k ih =>
    show for_from body (i + 1) (k + 1) (body i s) = _
    rw [ih]
    show _ = body (i + (k + 1)) (for_from body (i + 1) k (body i s))
    congr 1
    omega

theorem for_loop_succ {σ : Type} (body : Nat → σ → σ) (k : Nat) (s : σ) :
    for_loop body (k + 1) s = body k (for_loop body k s) := by
  unfold for_loop
  rw [for_from_succ, Nat.zero_add]

theorem trials_length (T : World → Trial) (k : Nat) (w : World) :
    (trials T k w).length = k := by
  simp [trials]

theorem trials_succ (T : World → Trial) (k : Nat) (w : World) :
    trials T (k + 1) w = trials T k w ++ [T (world_after T k w)] := by
  simp [trials, List.range_succ]

/-- The trial loop after `k` iterations: the environment is the one after `k`
trials and each timer is the running average of the `k` samples of its
kind, fed in trial order with the indices `0..k-1`. -/
theorem trial_loop_eq (T : World → Trial) (w : World) (g e : Int) (k : Nat) :
    for_loop (fun i s => update_timers i s (T s.w)) k { w := w, time_ini := g, time_exec := e }
      = { w := world_after T k w
          time_ini := run_avg 0 g ((trials T k w).map Trial.ini_sample)
          time_exec := run_avg 0 e ((trials T k w).map Trial.exec_sample) } := by
  induction k with
  | zero => rfl
  | succ k ih =>
    rw [for_loop_succ, ih, trials_succ]
    simp only [List.map_append, List.map_singleton, run_avg_append, List.length_map,
      trials_length, Nat.zero_add]
    rfl

theorem loop_complex_eq (clk : Clock) (g : Int) (N : Nat) (w : World) :
    loop_complex clk g N w
      = { w := world_after (trial_complex clk N) 1000 w
          time_ini := run_avg 0 g ((trials (trial_complex clk N) 1000 w).map Trial.ini_sample)
          time_exec :=
            run_avg 0 0 ((trials (trial_complex clk N) 1000 w).map Trial.exec_sample) } :=
  trial_loop_eq (trial_complex clk N) w g 0 1000

theorem loop_real_eq (clk : Clock) (g : Int) (N : Nat) (w : World) :
    loop_real clk g N w
      = { w := world_after (trial_real clk N) 1000 w
          time_ini := run_avg 0 g ((trials (trial_real clk N) 1000 w).map Trial.ini_sample)
          time_exec :=
            run_avg 0 0 ((trials (trial_real clk N) 1000 w).map Trial.exec_sample) } :=
  trial_loop_eq (trial_real clk N) w g 0 1000

/-! ### One trial -/

/-- The calls of one trial of `bench_complex`, in order, when the next fresh
handle is `a`. -/
theorem trial_complex_trace (clk : Clock) (N : Nat) (w : World) :
    (trial_complex clk N w).w.trace = w.trace ++
      [Event.clock_gettime, Event.fftw_alloc_complex N w.next, Event.memcpy w.next (N * 16),
        Event.fftw_alloc_complex N (w.next + 1),
        Event.fftw_plan_dft_1d N w.next (w.next + 1) (w.next + 2),
        Event.clock_gettime, Event.fftw_execute (w.next + 2), Event.clock_gettime,
        Event.fftw_destroy_plan (w.next + 2), Event.fftw_free w.next,
        Event.fftw_free (w.next + 1)] := by
  simp [trial_complex, sclock, fftw_alloc_complex, memcpy, fftw_plan_dft_1d, fftw_execute,
    fftw_destroy_plan, fftw_free, World.emit]

/-- The calls of one trial of `bench_real`, in order. -/
theorem trial_real_trace (clk : Clock) (N : Nat) (w : World) :
    (trial_real clk N w).w.trace = w.trace ++
      [Event.clock_gettime, Event.fftw_alloc_real N w.next, Event.memcpy w.next (N * 8),
        Event.fftw_alloc_complex (N / 2 + 1) (w.next + 1),
        Event.fftw_plan_dft_r2c_1d N w.next (w.next + 1) (w.next + 2),
        Event.clock_gettime, Event.fftw_execute (w.next + 2), Event.clock_gettime,
        Event.fftw_destroy_plan (w.next + 2), Event.fftw_free w.next,
        Event.fftw_free (w.next + 1)] := by
  simp [trial_real, sclock, fftw_alloc_real, fftw_alloc_complex, memcpy, fftw_plan_dft_r2c_1d,
    fftw_execute, fftw_destroy_plan, fftw_free, World.emit]

/-- The three readings of one trial of `bench_complex`: each is the clock at
the calls made before it. -/
theorem trial_complex_readings (clk : Clock) (N : Nat) (w : World) :
    (trial_complex clk N w).start = sclock_value (clk w.trace) ∧
    (trial_complex clk N w).t1 = sclock_value (clk (w.trace ++
      [Event.clock_gettime, Event.fftw_alloc_complex N w.next, Event.memcpy w.next (N * 16),
        Event.fftw_alloc_complex N (w.next + 1),
        Event.fftw_plan_dft_1d N w.next (w.next + 1) (w.next + 2)])) ∧
    (trial_complex clk N w).t2 = sclock_value (clk (w.trace ++
      [Event.clock_gettime, Event.fftw_alloc_complex N w.next, Event.memcpy w.next (N * 16),
        Event.fftw_alloc_complex N (w.next + 1),
        Event.fftw_plan_dft_1d N w.next (w.next + 1) (w.next + 2),
        Event.clock_gettime, Event.fftw_execute (w.next + 2)])) := by
  simp [trial_complex, sclock, fftw_alloc_complex, memcpy, fftw_plan_dft_1d, fftw_execute,
    fftw_destroy_plan, fftw_free, World.emit]

/-- The three readings of one trial of `bench_real`. -/
theorem trial_real_readings (clk : Clock) (N : Nat) (w : World) :
    (trial_real clk N w).start = sclock_value (clk w.trace) ∧
    (trial_real clk N w).t1 = sclock_value (clk (w.trace ++
      [Event.clock_gettime, Event.fftw_alloc_real N w.next, Event.memcpy w.next (N * 8),
        Event.fftw_alloc_complex (N / 2 + 1) (w.next + 1),
        Event.fftw_plan_dft_r2c_1d N w.next (w.next + 1) (w.next + 2)])) ∧
    (trial_real clk N w).t2 = sclock_value (clk (w.trace ++
      [Event.clock_gettime, Event.fftw_alloc_real N w.next, Event.memcpy w.next (N * 8),
        Event.fftw_alloc_complex (N / 2 + 1) (w.next + 1),
        Event.fftw_plan_dft_r2c_1d N w.next (w.next + 1) (w.next + 2),
        Event.clock_gettime, Event.fftw_execute (w.next + 2)])) := by
  simp [trial_real, sclock, fftw_alloc_real, fftw_alloc_complex, memcpy, fftw_plan_dft_r2c_1d,
    fftw_execute, fftw_destroy_plan, fftw_free, World.emit]

theorem trial_complex_rest (clk : Clock) (N : Nat) (w : World) :
    (trial_complex clk N w).w.next = w.next + 3 ∧
    (trial_complex clk N w).w.draws = w.draws ∧ (trial_complex clk N w).w.out = w.out := by
  simp [trial_complex, sclock, fftw_alloc_complex, memcpy, fftw_plan_dft_1d, fftw_execute,
    fftw_destroy_plan, fftw_free, World.emit]

theorem trial_real_rest (clk : Clock) (N : Nat) (w : World) :
    (trial_real clk N w).w.next = w.next + 3 ∧
    (trial_real clk N w).w.draws = w.draws ∧ (trial_real clk N w).w.out = w.out := by
  simp [trial_real, sclock, fftw_alloc_real, fftw_alloc_complex, memcpy, fftw_plan_dft_r2c_1d,
    fftw_execute, fftw_destroy_plan, fftw_free, World.emit]

/-! ## The clock source -/

theorem sclock_value_of_range (ts : Timespec)
    (h1 : CLOCK_T_MIN ≤ ts.tv_sec * 1000000000 + ts.tv_nsec)
    (h2 : ts.tv_sec * 1000000000 + ts.tv_nsec ≤ CLOCK_T_MAX) :
    sclock_value ts = ts.tv_sec * 1000000000 + ts.tv_nsec := by
  unfold sclock_value
  rw [wrap64_add_wrap64]
  exact wrap64_of_range h1 h2

/-- C8. `sclock` returns `tv_sec*1000000000 + tv_nsec`, and of two calls whose
readings `clk w1.trace` (earlier) and `clk w2.trace` (later) are ordered
lexicographically, have `0 ≤ tv_nsec < 10^9` and a nanosecond count inside the
64-bit `clock_t` range, the later call never returns less than the earlier one;
the two results are equal only for equal readings. -/
theorem sclock_monotonic (clk : Clock) (w1 w2 : World)
    (hn1 : 0 ≤ (clk w1.trace).tv_nsec ∧ (clk w1.trace).tv_nsec < 1000000000)
    (hn2 : 0 ≤ (clk w2.trace).tv_nsec ∧ (clk w2.trace).tv_nsec < 1000000000)
    (hlex : (clk w1.trace).tv_sec < (clk w2.trace).tv_sec ∨
      ((clk w1.trace).tv_sec = (clk w2.trace).tv_sec ∧
        (clk w1.trace).tv_nsec ≤ (clk w2.trace).tv_nsec))
    (hr1 : CLOCK_T_MIN ≤ (clk w1.trace).tv_sec * 1000000000 + (clk w1.trace).tv_nsec ∧
      (clk w1.trace).tv_sec * 1000000000 + (clk w1.trace).tv_nsec ≤ CLOCK_T_MAX)
    (hr2 : CLOCK_T_MIN ≤ (clk w2.trace).tv_sec * 1000000000 + (clk w2.trace).tv_nsec ∧
      (clk w2.trace).tv_sec * 1000000000 + (clk w2.trace).tv_nsec ≤ CLOCK_T_MAX) :
    (sclock clk w1).1 = (clk w1.trace).tv_sec * 1000000000 + (clk w1.trace).tv_nsec ∧
    (sclock clk w2).1 = (clk w2.trace).tv_sec * 1000000000 + (clk w2.trace).tv_nsec ∧
    (sclock clk w1).1 ≤ (sclock clk w2).1 ∧
    ((sclock clk w1).1 = (sclock clk w2).1 → clk w1.trace = clk w2.trace) := by
  have e1 := sclock_value_of_range (clk w1.trace) hr1.1 hr1.2
  have e2 := sclock_value_of_range (clk w2.trace) hr2.1 hr2.2
  show sclock_value (clk w1.trace) = _ ∧ sclock_value (clk w2.trace) = _ ∧
    sclock_value (clk w1.trace) ≤ sclock_value (clk w2.trace) ∧
    (sclock_value (clk w1.trace) = sclock_value (clk w2.trace) → clk w1.trace = clk w2.trace)
  rw [e1, e2]
  refine ⟨rfl, rfl, by omega, ?_⟩
  intro h
  have hs : (clk w1.trace).tv_sec = (clk w2.trace).tv_sec := by omega
  have hn : (clk w1.trace).tv_nsec = (clk w2.trace).tv_nsec := by omega
  cases h1 : clk w1.trace
  cases h2 : clk w2.trace
  rw [h1] at hs hn
  rw [h2] at hs hn
  simp only at hs hn
  rw [hs, hn]

/-- Witness of C8: a reading of 3 s + 5 ns followed by one of 4 s + 1 ns. -/
theorem sclock_monotonic_witness :
    (sclock (fun h => if h = [] then ⟨3, 5⟩ else ⟨4, 1⟩) World.start).1 = 3000000005 ∧
    (sclock (fun h => if h = [] then ⟨3, 5⟩ else ⟨4, 1⟩)
      (World.start.emit Event.clock_gettime)).1 = 4000000001 ∧
    (sclock (fun h => if h = [] then ⟨3, 5⟩ else ⟨4, 1⟩) World.start).1
      ≤ (sclock (fun h => if h = [] then ⟨3, 5⟩ else ⟨4, 1⟩)
          (World.start.emit Event.clock_gettime)).1 ∧
    ((sclock (fun h => if h = [] then ⟨3, 5⟩ else ⟨4, 1⟩) World.start).1
      = (sclock (fun h => if h = [] then ⟨3, 5⟩ else ⟨4, 1⟩)
          (World.start.emit Event.clock_gettime)).1 →
      (fun h => if h = [] then (⟨3, 5⟩ : Timespec) else ⟨4, 1⟩) World.start.trace
        = (fun h => if h = [] then (⟨3, 5⟩ : Timespec) else ⟨4, 1⟩)
            (World.start.emit Event.clock_gettime).trace) :=
  sclock_monotonic (fun h => if h = [] then ⟨3, 5⟩ else ⟨4, 1⟩) World.start
    (World.start.emit Event.clock_gettime) (by decide) (by decide) (by decide) (by decide)
    (by decide)

/-! ## The running average -/

theorem run_avg_const (g c : Int) (samples : List Int) (hne : samples ≠ [])
    (hc : ∀ s ∈ samples, s = c) (h0 : 0 ≤ c) (hfit : samples.sum ≤ CLOCK_T_MAX) :
    run_avg 0 g samples = c := by
  obtain ⟨_, _, _, hmin, hmax⟩ :=
    run_avg_inv g samples hne (fun s hs => by rw [hc s hs]; exact h0) hfit
  exact le_antisymm (hmax c (fun s hs => le_of_eq (hc s hs)))
    (hmin c (fun s hs => le_of_eq (hc s hs).symm))

/-- C10, amended. For non-negative samples `s_0..s_i` whose sum fits `clock_t`,
the accumulator `a_i` left by the updates (whatever it held before trial 0)
never exceeds the true mean and undershoots it by at most `i/2`:
`0 ≤ (s_0+...+s_i) - (i+1)*a_i ≤ i*(i+1)/2`; it lies between the smallest and
the largest sample, and it equals `c` when every sample equals `c`. -/
theorem truncation_drift (g : Int) (samples : List Int) (hne : samples ≠ [])
    (hpos : ∀ s ∈ samples, 0 ≤ s) (hfit : samples.sum ≤ CLOCK_T_MAX) :
    0 ≤ samples.sum - (samples.length : Int) * run_avg 0 g samples ∧
    samples.sum - (samples.length : Int) * run_avg 0 g samples
      ≤ ((samples.length : Int) - 1) * (samples.length : Int) / 2 ∧
    (∀ m : Int, (∀ s ∈ samples, m ≤ s) → m ≤ run_avg 0 g samples) ∧
    (∀ M : Int, (∀ s ∈ samples, s ≤ M) → run_avg 0 g samples ≤ M) ∧
    (∀ c : Int, (∀ s ∈ samples, s = c) → run_avg 0 g samples = c) := by
  obtain ⟨h0, h1, h2, hmin, hmax⟩ := run_avg_inv g samples hne hpos hfit
  refine ⟨by omega, ?_, hmin, hmax, ?_⟩
  · rw [Int.le_ediv_iff_mul_le (by decide)]
    have e : ((samples.length : Int) - 1) * (samples.length : Int)
        = (samples.length : Int) * ((samples.length : Int) - 1) := by ring
    omega
  · intro c hc
    obtain ⟨s, hs⟩ := List.exists_mem_of_ne_nil samples hne
    exact run_avg_const g c samples hne hc (by rw [← hc s hs]; exact hpos s hs) hfit

/-- Witness of C10, amended: the samples 3, 4, 4 after a previous accumulator
of 77. -/
theorem truncation_drift_witness :
    0 ≤ [(3 : Int), 4, 4].sum - ([(3 : Int), 4, 4].length : Int) * run_avg 0 77 [3, 4, 4] ∧
    [(3 : Int), 4, 4].sum - ([(3 : Int), 4, 4].length : Int) * run_avg 0 77 [3, 4, 4]
      ≤ (([(3 : Int), 4, 4].length : Int) - 1) * ([(3 : Int), 4, 4].length : Int) / 2 ∧
    (∀ m : Int, (∀ s ∈ [(3 : Int), 4, 4], m ≤ s) → m ≤ run_avg 0 77 [3, 4, 4]) ∧
    (∀ M : Int, (∀ s ∈ [(3 : Int), 4, 4], s ≤ M) → run_avg 0 77 [3, 4, 4] ≤ M) ∧
    (∀ c : Int, (∀ s ∈ [(3 : Int), 4, 4], s = c) → run_avg 0 77 [3, 4, 4] = c) :=
  truncation_drift 77 [3, 4, 4] (by decide) (by decide) (by decide)

/-- C10 as stated fails. Two samples of 2^62 ns are non-negative, but
`1*a_0 + s_1 = 2^63` does not fit `clock_t`: the accumulator becomes `-2^62`,
below both samples, and `(s_0+s_1) - 2*a_1 = 2^64` exceeds `1*2/2`. Moreover
the accumulator can equal `c` without every sample being `c`: the samples
0, 1 leave 0. -/
theorem truncation_drift_counterexample :
    (∀ s ∈ [(4611686018427387904 : Int), 4611686018427387904], 0 ≤ s) ∧
    run_avg 0 0 [4611686018427387904, 4611686018427387904] = -4611686018427387904 ∧
    ¬ ([(4611686018427387904 : Int), 4611686018427387904].sum
        - 2 * run_avg 0 0 [4611686018427387904, 4611686018427387904] ≤ 1 * (1 + 1) / 2) ∧
    ¬ (4611686018427387904 ≤ run_avg 0 0 [4611686018427387904, 4611686018427387904]) ∧
    ¬ ((∀ s ∈ [(4611686018427387904 : Int), 4611686018427387904], s = 4611686018427387904) →
        run_avg 0 0 [4611686018427387904, 4611686018427387904] = 4611686018427387904) ∧
    (run_avg 0 0 [0, 1] = 0 ∧ ¬ ∀ s ∈ [(0 : Int), 1], s = 0) := by
  decide

/-- C1, amended. For `k` samples, `1 ≤ k ≤ 1000`, each between 0 and
9223372036854775 ns (so that no update overflows `clock_t`), the accumulator
after trial `i` is the mean of the samples `0..i` up to truncation: it never
exceeds that mean and is at most `i/2` below it. In particular the final
accumulator is at most `sum(samples)/k` and at most `(k-1)/2` below it. -/
theorem incremental_mean_truncated (g : Int) (samples : List Int)
    (hk1 : 1 ≤ samples.length) (hk2 : samples.length ≤ 1000)
    (hs : ∀ s ∈ samples, 0 ≤ s ∧ s ≤ 9223372036854775) :
    (∀ i : Nat, i < samples.length →
      ((run_avg 0 g (samples.take (i + 1)) : Int) : ℚ) ≤ mean (samples.take (i + 1)) ∧
      mean (samples.take (i + 1)) - ((run_avg 0 g (samples.take (i + 1)) : Int) : ℚ)
        ≤ (i : ℚ) / 2) ∧
    ((run_avg 0 g samples : Int) : ℚ) ≤ mean samples ∧
    mean samples - ((run_avg 0 g samples : Int) : ℚ) ≤ ((samples.length : ℚ) - 1) / 2 := by
  have key : ∀ l : List Int, l ≠ [] → l.length ≤ 1000 →
      (∀ s ∈ l, 0 ≤ s ∧ s ≤ 9223372036854775) →
      ((run_avg 0 g l : Int) : ℚ) ≤ mean l ∧
      mean l - ((run_avg 0 g l : Int) : ℚ) ≤ ((l.length : ℚ) - 1) / 2 := by
    intro l hne hlen hl
    have hsum : l.sum ≤ CLOCK_T_MAX := by
      have h1 := List.sum_le_card_nsmul l 9223372036854775 (fun x hx => (hl x hx).2)
      have h2 : (l.length : Int) ≤ 1000 := by exact_mod_cast hlen
      rw [nsmul_eq_mul] at h1
      unfold CLOCK_T_MAX
      omega
    obtain ⟨_, h1, h2, _, _⟩ := run_avg_inv g l hne (fun s hx => (hl s hx).1) hsum
    have hlpos : (0 : ℚ) < (l.length : ℚ) := by
      have : 0 < l.length := List.length_pos.mpr hne
      exact_mod_cast this
    have q1 : ((l.length : Int) : ℚ) * ((run_avg 0 g l : Int) : ℚ) ≤ ((l.sum : Int) : ℚ) := by
      exact_mod_cast h1
    have q2 : 2 * (((l.sum : Int) : ℚ) - ((l.length : Int) : ℚ) * ((run_avg 0 g l : Int) : ℚ))
        ≤ ((l.length : Int) : ℚ) * (((l.length : Int) : ℚ) - 1) := by
      exact_mod_cast h2
    simp only [Int.cast_natCast] at q1 q2
    unfold mean
    constructor
    · rw [le_div_iff₀ hlpos]
      linarith
    · rw [div_sub' _ _ _ (ne_of_gt hlpos), div_le_iff₀ hlpos]
      linarith
  refine ⟨?_, key samples (List.length_pos.mp (by omega)) hk2 hs⟩
  intro i hi
  have hlen : (samples.take (i + 1)).length = i + 1 := by
    rw [List.length_take]
    omega
  have h := key (samples.take (i + 1))
    (List.length_pos.mp (by omega)) (by omega)
    (fun s hx => hs s (List.mem_of_mem_take hx))
  rw [hlen] at h
  refine ⟨h.1, ?_⟩
  have e : (((i + 1 : Nat) : ℚ) - 1) / 2 = (i : ℚ) / 2 := by
    push_cast
    ring
  rw [← e]
  exact h.2

/-- Witness of C1, amended: the samples 3, 4, 4 after a previous accumulator
of 77. -/
theorem incremental_mean_truncated_witness :
    (∀ i : Nat, i < [(3 : Int), 4, 4].length →
      ((run_avg 0 77 ([(3 : Int), 4, 4].take (i + 1)) : Int) : ℚ)
        ≤ mean ([(3 : Int), 4, 4].take (i + 1)) ∧
      mean ([(3 : Int), 4, 4].take (i + 1))
        - ((run_avg 0 77 ([(3 : Int), 4, 4].take (i + 1)) : Int) : ℚ) ≤ (i : ℚ) / 2) ∧
    ((run_avg 0 77 [(3 : Int), 4, 4] : Int) : ℚ) ≤ mean [(3 : Int), 4, 4] ∧
    mean [(3 : Int), 4, 4] - ((run_avg 0 77 [(3 : Int), 4, 4] : Int) : ℚ)
      ≤ (([(3 : Int), 4, 4].length : ℚ) - 1) / 2 :=
  incremental_mean_truncated 77 [3, 4, 4] (by decide) (by decide) (by decide)

/-- C1 as stated fails. The two samples 0 and 1 are non-negative and
`1 ≤ 2 ≤ 1000`, but the final accumulator is 0 while `sum/k` is 1/2: they do
not agree within relative tolerance 1e-9. And two samples of 2^62 ns, whose
sum does not fit `clock_t`, leave the accumulator `-2^62`, above which the
mean `2^62` lies by far more than `(k-1)/2`. -/
theorem incremental_mean_counterexample :
    ((∀ s ∈ [(0 : Int), 1], 0 ≤ s) ∧ 1 ≤ [(0 : Int), 1].length ∧
      [(0 : Int), 1].length ≤ 1000 ∧
      run_avg 0 0 [0, 1] = 0 ∧ mean [0, 1] = 1 / 2 ∧
      ¬ within_rel_tol ((run_avg 0 0 [0, 1] : Int) : ℚ) (mean [0, 1])) ∧
    ((∀ s ∈ [(4611686018427387904 : Int), 4611686018427387904], 0 ≤ s) ∧
      run_avg 0 0 [4611686018427387904, 4611686018427387904] = -4611686018427387904 ∧
      mean [4611686018427387904, 4611686018427387904] = 4611686018427387904 ∧
      ¬ within_rel_tol
        ((run_avg 0 0 [4611686018427387904, 4611686018427387904] : Int) : ℚ)
        (mean [4611686018427387904, 4611686018427387904])) := by
  have hrun : run_avg 0 0 [0, 1] = 0 := by decide
  have hmean : mean [0, 1] = 1 / 2 := by norm_num [mean]
  have hrun2 : run_avg 0 0 [4611686018427387904, 4611686018427387904]
      = -4611686018427387904 := by decide
  have hmean2 : mean [4611686018427387904, 4611686018427387904] = 4611686018427387904 := by
    norm_num [mean]
  refine ⟨⟨by decide, by decide, by decide, hrun, hmean, ?_⟩, by decide, hrun2, hmean2, ?_⟩
  · rw [hrun, hmean]
    have habs : |(1 / 2 : ℚ)| = 1 / 2 := abs_of_pos (by norm_num)
    norm_num [within_rel_tol, habs]
  · rw [hrun2, hmean2]
    have habs : |(4611686018427387904 : ℚ)| = 4611686018427387904 :=
      abs_of_pos (by norm_num)
    have habs2 : |(-9223372036854775808 : ℚ)| = 9223372036854775808 := by
      rw [abs_neg]
      exact abs_of_pos (by norm_num)
    norm_num [within_rel_tol, habs, habs2]

/-! ## Trials and the environment -/

theorem trial_complex_shape (clk : Clock) (N : Nat) : trial_shape clk (trial_complex clk N) := by
  intro w
  refine ⟨[Event.clock_gettime, Event.fftw_alloc_complex N w.next, Event.memcpy w.next (N * 16),
      Event.fftw_alloc_complex N (w.next + 1),
      Event.fftw_plan_dft_1d N w.next (w.next + 1) (w.next + 2)],
    [Event.clock_gettime, Event.fftw_execute (w.next + 2)],
    [Event.clock_gettime, Event.fftw_destroy_plan (w.next + 2), Event.fftw_free w.next,
      Event.fftw_free (w.next + 1)], ?_⟩
  obtain ⟨h1, h2, h3⟩ := trial_complex_readings clk N w
  refine ⟨h1, h2, ?_, ?_, (trial_complex_rest clk N w).2.2⟩
  · rw [h3]; simp
  · rw [trial_complex_trace]; simp

theorem trial_real_shape (clk : Clock) (N : Nat) : trial_shape clk (trial_real clk N) := by
  intro w
  refine ⟨[Event.clock_gettime, Event.fftw_alloc_real N w.next, Event.memcpy w.next (N * 8),
      Event.fftw_alloc_complex (N / 2 + 1) (w.next + 1),
      Event.fftw_plan_dft_r2c_1d N w.next (w.next + 1) (w.next + 2)],
    [Event.clock_gettime, Event.fftw_execute (w.next + 2)],
    [Event.clock_gettime, Event.fftw_destroy_plan (w.next + 2), Event.fftw_free w.next,
      Event.fftw_free (w.next + 1)], ?_⟩
  obtain ⟨h1, h2, h3⟩ := trial_real_readings clk N w
  refine ⟨h1, h2, ?_, ?_, (trial_real_rest clk N w).2.2⟩
  · rw [h3]; simp
  · rw [trial_real_trace]; simp

theorem world_after_out (clk : Clock) (T : World → Trial) (hT : trial_shape clk T)
    (k : Nat) (w : World) : (world_after T k w).out = w.out := by
  induction k with
  | zero => rfl
  | succ k ih =>
    obtain ⟨A, B, C, _, _, _, _, h⟩ := hT (world_after T k w)
    show (T (world_after T k w)).w.out = w.out
    rw [h, ih]

theorem events_since_append (w w2 : World) (seg : List Event)
    (h : w2.trace = w.trace ++ seg) : events_since w w2 = seg := by
  unfold events_since
  rw [h, List.drop_left]

/-- The trace after `k` trials extends the trace before them. -/
theorem world_after_extends (clk : Clock) (T : World → Trial) (hT : trial_shape clk T)
    (k : Nat) (w : World) : ∃ seg, (world_after T k w).trace = w.trace ++ seg := by
  induction k with
  | zero => exact ⟨[], by simp [world_after]⟩
  | succ k ih =>
    obtain ⟨seg, hseg⟩ := ih
    obtain ⟨A, B, C, _, _, _, h, _⟩ := hT (world_after T k w)
    refine ⟨seg ++ A ++ B ++ C, ?_⟩
    show (T (world_after T k w)).w.trace = _
    rw [h, hseg]
    simp

/-- Samples taken with a non-decreasing clock whose readings never lie more
than `CLOCK_T_MAX` apart are non-negative, and their sums stay below the time
elapsed, so no update overflows. -/
theorem samples_bounded (clk : Clock) (T : World → Trial) (hT : trial_shape clk T)
    (hmono : ∀ h l, sclock_value (clk h) ≤ sclock_value (clk (h ++ l)))
    (hspan : ∀ h l, sclock_value (clk (h ++ l)) - sclock_value (clk h) ≤ CLOCK_T_MAX)
    (w : World) (k : Nat) :
    (∀ s ∈ (trials T k w).map Trial.ini_sample, 0 ≤ s) ∧
    (∀ s ∈ (trials T k w).map Trial.exec_sample, 0 ≤ s) ∧
    ((trials T k w).map Trial.ini_sample).sum + sclock_value (clk w.trace)
      ≤ sclock_value (clk (world_after T k w).trace) ∧
    ((trials T k w).map Trial.exec_sample).sum + sclock_value (clk w.trace)
      ≤ sclock_value (clk (world_after T k w).trace) := by
  induction k with
  | zero => simp [trials, world_after]
  | succ k ih =>
    obtain ⟨i1, i2, i3, i4⟩ := ih
    obtain ⟨A, B, C, hs, h1, h2, htr, _⟩ := hT (world_after T k w)
    have hmin : CLOCK_T_MIN ≤ 0 := by decide
    have m1 := hmono (world_after T k w).trace A
    have m2 := hmono ((world_after T k w).trace ++ A) B
    have m3 := hmono ((world_after T k w).trace ++ A ++ B) C
    have p1 := hspan (world_after T k w).trace A
    have p2 := hspan ((world_after T k w).trace ++ A) B
    have ei : (T (world_after T k w)).ini_sample
        = sclock_value (clk ((world_after T k w).trace ++ A))
          - sclock_value (clk (world_after T k w).trace) := by
      unfold Trial.ini_sample
      rw [hs, h1]
      exact wrap64_of_range (by omega) (by omega)
    have ee : (T (world_after T k w)).exec_sample
        = sclock_value (clk ((world_after T k w).trace ++ A ++ B))
          - sclock_value (clk ((world_after T k w).trace ++ A)) := by
      unfold Trial.exec_sample
      rw [h1, h2]
      exact wrap64_of_range (by omega) (by omega)
    have hw : (world_after T (k + 1) w).trace = (world_after T k w).trace ++ A ++ B ++ C := htr
    rw [trials_succ, hw]
    simp only [List.map_append, List.map_singleton, List.sum_append, List.sum_singleton,
      List.mem_append, List.mem_singleton]
    refine ⟨?_, ?_, by omega, by omega⟩
    · rintro s (hs' | rfl)
      · exact i1 s hs'
      · omega
    · rintro s (hs' | rfl)
      · exact i2 s hs'
      · omega

/-- With such a clock both timers are non-negative after every trial. -/
theorem timers_nonneg (clk : Clock) (T : World → Trial) (hT : trial_shape clk T)
    (hmono : ∀ h l, sclock_value (clk h) ≤ sclock_value (clk (h ++ l)))
    (hspan : ∀ h l, sclock_value (clk (h ++ l)) - sclock_value (clk h) ≤ CLOCK_T_MAX)
    (w : World) (g e : Int) (k : Nat) :
    0 ≤ run_avg 0 g ((trials T (k + 1) w).map Trial.ini_sample) ∧
    0 ≤ run_avg 0 e ((trials T (k + 1) w).map Trial.exec_sample) := by
  obtain ⟨i1, i2, i3, i4⟩ := samples_bounded clk T hT hmono hspan w (k + 1)
  obtain ⟨seg, hseg⟩ := world_after_extends clk T hT (k + 1) w
  have b := hspan w.trace seg
  rw [← hseg] at b
  have ne1 : (trials T (k + 1) w).map Trial.ini_sample ≠ [] := by
    intro h
    have := congrArg List.length h
    simp [trials_length] at this
  have ne2 : (trials T (k + 1) w).map Trial.exec_sample ≠ [] := by
    intro h
    have := congrArg List.length h
    simp [trials_length] at this
  exact ⟨(run_avg_inv g _ ne1 i1 (by omega)).1, (run_avg_inv e _ ne2 i2 (by omega)).1⟩

/-! ## Whole experiments -/

theorem for_loop_inv {σ : Type} (P : σ → Prop) (body : Nat → σ → σ)
    (hstep : ∀ i s, P s → P (body i s)) (n : Nat) (s : σ) (h0 : P s) :
    P (for_loop body n s) := by
  induction n with
  | zero => exact h0
  | succ n ih =>
    rw [for_loop_succ]
    exact hstep n _ ih

/-- The generation loop of `bench_complex` calls neither the clock nor the
engine and prints nothing. -/
theorem fill_complex_world (rnd : Rand) (N : Nat) (w : World) :
    (fill_complex rnd N w).w.trace = w.trace ∧ (fill_complex rnd N w).w.next = w.next ∧
    (fill_complex rnd N w).w.out = w.out := by
  unfold fill_complex
  apply for_loop_inv (fun s : Filling =>
    s.w.trace = w.trace ∧ s.w.next = w.next ∧ s.w.out = w.out)
  · intro i s h
    simpa [draw_sample] using h
  · exact ⟨rfl, rfl, rfl⟩

/-- The generation loop of `bench_real` calls neither the clock nor the engine
and prints nothing. -/
theorem fill_real_world (rnd : Rand) (N : Nat) (w : World) :
    (fill_real rnd N w).w.trace = w.trace ∧ (fill_real rnd N w).w.next = w.next ∧
    (fill_real rnd N w).w.out = w.out := by
  unfold fill_real
  apply for_loop_inv (fun s : Filling =>
    s.w.trace = w.trace ∧ s.w.next = w.next ∧ s.w.out = w.out)
  · intro i s h
    simpa [draw_sample] using h
  · exact ⟨rfl, rfl, rfl⟩

/-- What `bench_complex` prints and the trace it leaves. -/
theorem bench_complex_eq (clk : Clock) (rnd : Rand) (g : Int) (N : Nat) (w : World) :
    (bench_complex clk rnd g N w).out = w.out ++
      [{ n := N, kind := "complex"
         init := reported (run_avg 0 g
           ((trials (trial_complex clk N) 1000 (fill_complex rnd N w).w).map Trial.ini_sample))
         exec := reported (run_avg 0 0
           ((trials (trial_complex clk N) 1000 (fill_complex rnd N w).w).map
             Trial.exec_sample)) }] ∧
    (bench_complex clk rnd g N w).trace
      = (world_after (trial_complex clk N) 1000 (fill_complex rnd N w).w).trace := by
  unfold bench_complex
  simp only [loop_complex_eq, printf]
  rw [world_after_out clk _ (trial_complex_shape clk N), (fill_complex_world rnd N w).2.2]
  simp

/-- What `bench_real` prints and the trace it leaves. -/
theorem bench_real_eq (clk : Clock) (rnd : Rand) (g : Int) (N : Nat) (w : World) :
    (bench_real clk rnd g N w).out = w.out ++
      [{ n := N, kind := "real"
         init := reported (run_avg 0 g
           ((trials (trial_real clk N) 1000 (fill_real rnd N w).w).map Trial.ini_sample))
         exec := reported (run_avg 0 0
           ((trials (trial_real clk N) 1000 (fill_real rnd N w).w).map
             Trial.exec_sample)) }] ∧
    (bench_real clk rnd g N w).trace
      = (world_after (trial_real clk N) 1000 (fill_real rnd N w).w).trace := by
  unfold bench_real
  simp only [loop_real_eq, printf]
  rw [world_after_out clk _ (trial_real_shape clk N), (fill_real_world rnd N w).2.2]
  simp

theorem reported_nonneg {t : Int} (h : 0 ≤ t) : 0 ≤ reported t := by
  unfold reported
  have : (0 : ℚ) ≤ (t : ℚ) := by exact_mod_cast h
  positivity

theorem sclock_value_timespec_of_ns (t : Int) : sclock_value (timespec_of_ns t) = wrap64 t := by
  unfold sclock_value timespec_of_ns
  rw [wrap64_add_wrap64]
  congr 1
  show t / 1000000000 * 1000000000 + t % 1000000000 = t
  omega

theorem render_eq (N : Nat) (kind : String) (a b : ℚ) :
    render { n := N, kind := kind, init := a, exec := b }
      = "n=" ++ fmt_u N ++ ", " ++ kind ++ ", init: " ++ fmt_f a ++ "ms, exec: " ++ fmt_f b
          ++ "ms\n" := rfl

/-! ## Scenarios with an instrumented clock -/

theorem wrap64_sub_wrap64 (a b : Int) : wrap64 (wrap64 a - wrap64 b) = wrap64 (a - b) := by
  unfold wrap64
  omega

/-- With a clock that always delivers the same reading, both samples of a
trial are 0. -/
theorem const_clock_samples (ts : Timespec) (T : World → Trial)
    (hT : trial_shape (fun _ => ts) T) (w : World) :
    (T w).ini_sample = 0 ∧ (T w).exec_sample = 0 := by
  obtain ⟨A, B, C, hs, h1, h2, _, _⟩ := hT w
  unfold Trial.ini_sample Trial.exec_sample
  rw [hs, h1, h2]
  simp [wrap64_zero]

/-- With a clock that always delivers the same reading, both timers are 0
after every trial, whatever they held before the first one. -/
theorem const_clock_timers (ts : Timespec) (T : World → Trial)
    (hT : trial_shape (fun _ => ts) T) (w : World) (g e : Int) (k : Nat) :
    for_loop (fun i s => update_timers i s (T s.w)) (k + 1)
        { w := w, time_ini := g, time_exec := e }
      = { w := world_after T (k + 1) w, time_ini := 0, time_exec := 0 } := by
  rw [trial_loop_eq]
  have z1 : ∀ s ∈ (trials T (k + 1) w).map Trial.ini_sample, s = 0 := by
    intro s hs
    simp only [trials, List.map_map, List.mem_map, List.mem_range] at hs
    obtain ⟨i, _, rfl⟩ := hs
    exact (const_clock_samples ts T hT _).1
  have z2 : ∀ s ∈ (trials T (k + 1) w).map Trial.exec_sample, s = 0 := by
    intro s hs
    simp only [trials, List.map_map, List.mem_map, List.mem_range] at hs
    obtain ⟨i, _, rfl⟩ := hs
    exact (const_clock_samples ts T hT _).2
  have ne1 : (trials T (k + 1) w).map Trial.ini_sample ≠ [] := by
    intro h
    have := congrArg List.length h
    simp [trials_length] at this
  have ne2 : (trials T (k + 1) w).map Trial.exec_sample ≠ [] := by
    intro h
    have := congrArg List.length h
    simp [trials_length] at this
  have hmax : (0 : Int) ≤ CLOCK_T_MAX := by decide
  rw [run_avg_const g 0 _ ne1 z1 le_rfl (by rw [List.sum_eq_zero z1]; exact hmax),
    run_avg_const e 0 _ ne2 z2 le_rfl (by rw [List.sum_eq_zero z2]; exact hmax)]

theorem render_zero (N : Nat) (kind : String) :
    render { n := N, kind := kind, init := 0, exec := 0 }
      = "n=" ++ fmt_u N ++ ", " ++ kind ++ ", init: 0.000000ms, exec: 0.000000ms\n" := by
  have h : fmt_f 0 = "0.000000" := by decide
  rw [render_eq, h]
  simp only [String.append_assoc]
  rfl

/-- C7. When the clock returns the same reading `ts` on every call, then for
every `ts`, every size `N` and every value `g` that `time_ini` holds before the
first trial, both running averages are 0 after every trial (after `k+1`
iterations of the loop, for every `k`) in `bench_complex` and in `bench_real`,
and the line printed reports 0 for init and exec, shown as `0.000000`. -/
theorem zero_duration_scenario (ts : Timespec) (rnd : Rand) (g : Int) (N : Nat) (w : World)
    (k : Nat) :
    (for_loop (body_complex (fun _ => ts) N) (k + 1)
      { w := w, time_ini := g, time_exec := 0 }).time_ini = 0 ∧
    (for_loop (body_complex (fun _ => ts) N) (k + 1)
      { w := w, time_ini := g, time_exec := 0 }).time_exec = 0 ∧
    (for_loop (body_real (fun _ => ts) N) (k + 1)
      { w := w, time_ini := g, time_exec := 0 }).time_ini = 0 ∧
    (for_loop (body_real (fun _ => ts) N) (k + 1)
      { w := w, time_ini := g, time_exec := 0 }).time_exec = 0 ∧
    (bench_complex (fun _ => ts) rnd g N w).out
      = w.out ++ [{ n := N, kind := "complex", init := 0, exec := 0 }] ∧
    (bench_real (fun _ => ts) rnd g N w).out
      = w.out ++ [{ n := N, kind := "real", init := 0, exec := 0 }] ∧
    render { n := N, kind := "complex", init := 0, exec := 0 }
      = "n=" ++ fmt_u N ++ ", complex, init: 0.000000ms, exec: 0.000000ms\n" ∧
    render { n := N, kind := "real", init := 0, exec := 0 }
      = "n=" ++ fmt_u N ++ ", real, init: 0.000000ms, exec: 0.000000ms\n" := by
  have hc := const_clock_timers ts (trial_complex (fun _ => ts) N)
    (trial_complex_shape _ N)
  have hr := const_clock_timers ts (trial_real (fun _ => ts) N) (trial_real_shape _ N)
  have r0 : reported 0 = 0 := by simp [reported]
  refine ⟨?_, ?_, ?_, ?_, ?_, ?_, ?_, ?_⟩
  · exact congrArg Timers.time_ini (hc w g 0 k)
  · exact congrArg Timers.time_exec (hc w g 0 k)
  · exact congrArg Timers.time_ini (hr w g 0 k)
  · exact congrArg Timers.time_exec (hr w g 0 k)
  · have h := hc (fill_complex rnd N w).w g 0 999
    have e : loop_complex (fun _ => ts) g N (fill_complex rnd N w).w = _ := h
    unfold bench_complex
    simp only [e, printf, r0]
    rw [world_after_out _ _ (trial_complex_shape _ N), (fill_complex_world rnd N w).2.2]
  · have h := hr (fill_real rnd N w).w g 0 999
    have e : loop_real (fun _ => ts) g N (fill_real rnd N w).w = _ := h
    unfold bench_real
    simp only [e, printf, r0]
    rw [world_after_out _ _ (trial_real_shape _ N), (fill_real_world rnd N w).2.2]
  · rw [render_zero]
    simp only [String.append_assoc]
    rfl
  · rw [render_zero]
    simp only [String.append_assoc]
    rfl

theorem cost_clock_value (t0 : Int) (cost : Event → Nat) (h : List Event) :
    sclock_value (cost_clock t0 cost h) = wrap64 (t0 + ((h.map cost).sum : Nat)) := by
  unfold cost_clock
  exact sclock_value_timespec_of_ns _

/-- Samples of one trial of `bench_complex` under a clock advanced by the
cost of every call. -/
theorem trial_complex_cost (t0 : Int) (cost : Event → Nat) (N : Nat) (w : World) :
    (trial_complex (cost_clock t0 cost) N w).ini_sample
      = wrap64 ((cost Event.clock_gettime + cost (Event.fftw_alloc_complex N w.next)
          + cost (Event.memcpy w.next (N * 16))
          + cost (Event.fftw_alloc_complex N (w.next + 1))
          + cost (Event.fftw_plan_dft_1d N w.next (w.next + 1) (w.next + 2)) : Nat) : Int) ∧
    (trial_complex (cost_clock t0 cost) N w).exec_sample
      = wrap64 ((cost Event.clock_gettime + cost (Event.fftw_execute (w.next + 2)) : Nat)
          : Int) := by
  obtain ⟨h1, h2, h3⟩ := trial_complex_readings (cost_clock t0 cost) N w
  unfold Trial.ini_sample Trial.exec_sample
  rw [h1, h2, h3]
  simp only [cost_clock_value, wrap64_sub_wrap64, List.map_append, List.sum_append,
    List.map_cons, List.map_nil, List.sum_cons, List.sum_nil]
  constructor
  · congr 1
    push_cast
    ring
  · congr 1
    push_cast
    ring

/-- Samples of one trial of `bench_real` under a clock advanced by the cost of
every call. -/
theorem trial_real_cost (t0 : Int) (cost : Event → Nat) (N : Nat) (w : World) :
    (trial_real (cost_clock t0 cost) N w).ini_sample
      = wrap64 ((cost Event.clock_gettime + cost (Event.fftw_alloc_real N w.next)
          + cost (Event.memcpy w.next (N * 8))
          + cost (Event.fftw_alloc_complex (N / 2 + 1) (w.next + 1))
          + cost (Event.fftw_plan_dft_r2c_1d N w.next (w.next + 1) (w.next + 2)) : Nat)
          : Int) ∧
    (trial_real (cost_clock t0 cost) N w).exec_sample
      = wrap64 ((cost Event.clock_gettime + cost (Event.fftw_execute (w.next + 2)) : Nat)
          : Int) := by
  obtain ⟨h1, h2, h3⟩ := trial_real_readings (cost_clock t0 cost) N w
  unfold Trial.ini_sample Trial.exec_sample
  rw [h1, h2, h3]
  simp only [cost_clock_value, wrap64_sub_wrap64, List.map_append, List.sum_append,
    List.map_cons, List.map_nil, List.sum_cons, List.sum_nil]
  constructor
  · congr 1
    push_cast
    ring
  · congr 1
    push_cast
    ring

/-- Timers of a loop all of whose trials measure the same two samples. -/
theorem const_samples_timers (T : World → Trial) (a b : Int) (ha : 0 ≤ a) (hb : 0 ≤ b)
    (ha2 : 1000 * a ≤ CLOCK_T_MAX) (hb2 : 1000 * b ≤ CLOCK_T_MAX)
    (hT : ∀ w, (T w).ini_sample = a ∧ (T w).exec_sample = b) (w : World) (g e : Int) :
    run_avg 0 g ((trials T 1000 w).map Trial.ini_sample) = a ∧
    run_avg 0 e ((trials T 1000 w).map Trial.exec_sample) = b := by
  have z1 : ∀ s ∈ (trials T 1000 w).map Trial.ini_sample, s = a := by
    intro s hs
    simp only [trials, List.map_map, List.mem_map, List.mem_range] at hs
    obtain ⟨i, _, rfl⟩ := hs
    exact (hT _).1
  have z2 : ∀ s ∈ (trials T 1000 w).map Trial.exec_sample, s = b := by
    intro s hs
    simp only [trials, List.map_map, List.mem_map, List.mem_range] at hs
    obtain ⟨i, _, rfl⟩ := hs
    exact (hT _).2
  have l1 : ((trials T 1000 w).map Trial.ini_sample).length = 1000 := by
    rw [List.length_map, trials_length]
  have l2 : ((trials T 1000 w).map Trial.exec_sample).length = 1000 := by
    rw [List.length_map, trials_length]
  have s1 := List.sum_le_card_nsmul _ a (fun s hs => le_of_eq (z1 s hs))
  have s2 := List.sum_le_card_nsmul _ b (fun s hs => le_of_eq (z2 s hs))
  rw [l1, nsmul_eq_mul] at s1
  rw [l2, nsmul_eq_mul] at s2
  push_cast at s1 s2
  constructor
  · exact run_avg_const g a _ (List.length_pos.mp (by rw [l1]; decide)) z1 ha (by omega)
  · exact run_avg_const e b _ (List.length_pos.mp (by rw [l2]; decide)) z2 hb (by omega)

/-- The line `bench_complex` prints in the scenario of C2. -/
theorem scenario_complex (t0 : Int) (rnd : Rand) (g : Int) (N : Nat) (w : World) :
    (bench_complex (cost_clock t0 scenario_cost) rnd g N w).out
      = w.out ++ [{ n := N, kind := "complex", init := 1000, exec := 500 }] := by
  have hT : ∀ w, (trial_complex (cost_clock t0 scenario_cost) N w).ini_sample = 1000000 ∧
      (trial_complex (cost_clock t0 scenario_cost) N w).exec_sample = 500000 := by
    intro w
    obtain ⟨h1, h2⟩ := trial_complex_cost t0 scenario_cost N w
    rw [h1, h2]
    simp only [scenario_cost]
    decide
  obtain ⟨h1, h2⟩ := const_samples_timers _ 1000000 500000 (by decide) (by decide)
    (by decide) (by decide) hT (fill_complex rnd N w).w g 0
  rw [(bench_complex_eq _ rnd g N w).1, h1, h2]
  norm_num [reported]

/-- The line `bench_real` prints in the scenario of C2. -/
theorem scenario_real (t0 : Int) (rnd : Rand) (g : Int) (N : Nat) (w : World) :
    (bench_real (cost_clock t0 scenario_cost) rnd g N w).out
      = w.out ++ [{ n := N, kind := "real", init := 1000, exec := 500 }] := by
  have hT : ∀ w, (trial_real (cost_clock t0 scenario_cost) N w).ini_sample = 1000000 ∧
      (trial_real (cost_clock t0 scenario_cost) N w).exec_sample = 500000 := by
    intro w
    obtain ⟨h1, h2⟩ := trial_real_cost t0 scenario_cost N w
    rw [h1, h2]
    simp only [scenario_cost]
    decide
  obtain ⟨h1, h2⟩ := const_samples_timers _ 1000000 500000 (by decide) (by decide)
    (by decide) (by decide) hT (fill_real rnd N w).w g 0
  rw [(bench_real_eq _ rnd g N w).1, h1, h2]
  norm_num [reported]

theorem render_scenario (N : Nat) (kind : String) :
    render { n := N, kind := kind, init := 1000, exec := 500 }
      = "n=" ++ fmt_u N ++ ", " ++ kind ++ ", init: 1000.000000ms, exec: 500.000000ms\n" := by
  have h1 : fmt_f 1000 = "1000.000000" := by decide
  have h2 : fmt_f 500 = "500.000000" := by decide
  rw [render_eq, h1, h2]
  simp only [String.append_assoc]
  rfl

/-- C2, amended. With a clock that plan construction advances by 1,000,000 ns,
execution by 500,000 ns and no other call advances, started at any `t0`, the
values reported after the 1000 trials (final accumulator divided by the
1000.0 of the `printf` call) are init = 1000.000000 and exec = 500.000000,
for `bench_complex` and for `bench_real`, every size `N` and every previous
value `g` of `time_ini`. -/
theorem fixed_cost_scenario (t0 : Int) (rnd : Rand) (g : Int) (N : Nat) (w : World) :
    (bench_complex (cost_clock t0 scenario_cost) rnd g N w).out
      = w.out ++ [{ n := N, kind := "complex", init := 1000, exec := 500 }] ∧
    (bench_real (cost_clock t0 scenario_cost) rnd g N w).out
      = w.out ++ [{ n := N, kind := "real", init := 1000, exec := 500 }] ∧
    render { n := N, kind := "complex", init := 1000, exec := 500 }
      = "n=" ++ fmt_u N ++ ", complex, init: 1000.000000ms, exec: 500.000000ms\n" ∧
    render { n := N, kind := "real", init := 1000, exec := 500 }
      = "n=" ++ fmt_u N ++ ", real, init: 1000.000000ms, exec: 500.000000ms\n" := by
  refine ⟨scenario_complex t0 rnd g N w, scenario_real t0 rnd g N w, ?_, ?_⟩
  · rw [render_scenario]
    simp only [String.append_assoc]
    rfl
  · rw [render_scenario]
    simp only [String.append_assoc]
    rfl

/-- C2 as stated fails. In the scenario, with the clock started at 0,
`bench_complex(100)` and `bench_real(100)` report init = 1000 and exec = 500
(printed `1000.000000` and `500.000000`), not 1.000000 and 0.500000. -/
theorem fixed_cost_scenario_counterexample :
    (bench_complex (cost_clock 0 scenario_cost) (fun _ => 0) 0 100 World.start).out
      = [{ n := 100, kind := "complex", init := 1000, exec := 500 }] ∧
    (bench_real (cost_clock 0 scenario_cost) (fun _ => 0) 0 100 World.start).out
      = [{ n := 100, kind := "real", init := 1000, exec := 500 }] ∧
    (bench_complex (cost_clock 0 scenario_cost) (fun _ => 0) 0 100 World.start).out
      ≠ [{ n := 100, kind := "complex", init := 1, exec := 1 / 2 }] ∧
    (bench_real (cost_clock 0 scenario_cost) (fun _ => 0) 0 100 World.start).out
      ≠ [{ n := 100, kind := "real", init := 1, exec := 1 / 2 }] ∧
    render { n := 100, kind := "complex", init := 1000, exec := 500 }
      = "n=100, complex, init: 1000.000000ms, exec: 500.000000ms\n" := by
  have hc : (bench_complex (cost_clock 0 scenario_cost) (fun _ => 0) 0 100 World.start).out
      = [{ n := 100, kind := "complex", init := 1000, exec := 500 }] :=
    scenario_complex 0 (fun _ => 0) 0 100 World.start
  have hr : (bench_real (cost_clock 0 scenario_cost) (fun _ => 0) 0 100 World.start).out
      = [{ n := 100, kind := "real", init := 1000, exec := 500 }] :=
    scenario_real 0 (fun _ => 0) 0 100 World.start
  refine ⟨hc, hr, ?_, ?_, by decide⟩
  · rw [hc]
    intro h
    have := congrArg (fun l => l.map Line.init) h
    norm_num at this
  · rw [hr]
    intro h
    have := congrArg (fun l => l.map Line.init) h
    norm_num at this

/-! ## Engine calls per trial and per experiment -/

theorem trial_complex_events (clk : Clock) (N : Nat) (w : World) :
    events_since w (trial_complex clk N w).w =
      [Event.clock_gettime, Event.fftw_alloc_complex N w.next, Event.memcpy w.next (N * 16),
        Event.fftw_alloc_complex N (w.next + 1),
        Event.fftw_plan_dft_1d N w.next (w.next + 1) (w.next + 2),
        Event.clock_gettime, Event.fftw_execute (w.next + 2), Event.clock_gettime,
        Event.fftw_destroy_plan (w.next + 2), Event.fftw_free w.next,
        Event.fftw_free (w.next + 1)] :=
  events_since_append w _ _ (trial_complex_trace clk N w)

theorem trial_real_events (clk : Clock) (N : Nat) (w : World) :
    events_since w (trial_real clk N w).w =
      [Event.clock_gettime, Event.fftw_alloc_real N w.next, Event.memcpy w.next (N * 8),
        Event.fftw_alloc_complex (N / 2 + 1) (w.next + 1),
        Event.fftw_plan_dft_r2c_1d N w.next (w.next + 1) (w.next + 2),
        Event.clock_gettime, Event.fftw_execute (w.next + 2), Event.clock_gettime,
        Event.fftw_destroy_plan (w.next + 2), Event.fftw_free w.next,
        Event.fftw_free (w.next + 1)] :=
  events_since_append w _ _ (trial_real_trace clk N w)

theorem trial_complex_balanced (clk : Clock) (N : Nat) (w : World) :
    balanced (events_since w (trial_complex clk N w).w) := by
  rw [trial_complex_events]
  simp [balanced, Event.is_alloc, Event.is_free, Event.is_plan, Event.is_destroy,
    Event.allocated, Event.planned, live_buffers, live_plans, live_buffers_step,
    live_plans_step]

theorem trial_real_balanced (clk : Clock) (N : Nat) (w : World) :
    balanced (events_since w (trial_real clk N w).w) := by
  rw [trial_real_events]
  simp [balanced, Event.is_alloc, Event.is_free, Event.is_plan, Event.is_destroy,
    Event.allocated, Event.planned, live_buffers, live_plans, live_buffers_step,
    live_plans_step]

/-- A trial that starts with nothing live ends with nothing live. -/
theorem trial_complex_live (clk : Clock) (N : Nat) (w : World)
    (hb : live_buffers w.trace = []) (hp : live_plans w.trace = []) :
    live_buffers (trial_complex clk N w).w.trace = [] ∧
    live_plans (trial_complex clk N w).w.trace = [] := by
  rw [trial_complex_trace]
  unfold live_buffers live_plans at *
  rw [List.foldl_append, List.foldl_append, hb, hp]
  simp [live_buffers_step, live_plans_step]

theorem trial_real_live (clk : Clock) (N : Nat) (w : World)
    (hb : live_buffers w.trace = []) (hp : live_plans w.trace = []) :
    live_buffers (trial_real clk N w).w.trace = [] ∧
    live_plans (trial_real clk N w).w.trace = [] := by
  rw [trial_real_trace]
  unfold live_buffers live_plans at *
  rw [List.foldl_append, List.foldl_append, hb, hp]
  simp [live_buffers_step, live_plans_step]

theorem world_after_live (T : World → Trial)
    (hT : ∀ w, live_buffers w.trace = [] → live_plans w.trace = [] →
      live_buffers (T w).w.trace = [] ∧ live_plans (T w).w.trace = [])
    (w : World) (hb : live_buffers w.trace = []) (hp : live_plans w.trace = []) (k : Nat) :
    live_buffers (world_after T k w).trace = [] ∧ live_plans (world_after T k w).trace = [] := by
  induction k with
  | zero => exact ⟨hb, hp⟩
  | succ k ih => exact hT _ ih.1 ih.2

/-- C4. In every trial `i` of `bench_complex` and of `bench_real`, started in
any environment `w0`, the events of the trial allocate exactly 2 buffers and
release exactly 2, create exactly 1 plan and destroy exactly 1, every release
and destruction targets an object created in the same trial, and no object of
the trial is live at its end (`balanced`); so if no buffer and no plan is live
when the loop starts, none is live at the end of any trial. -/
theorem no_leak_per_trial (clk : Clock) (N : Nat) (w0 : World) (i : Nat) :
    balanced (events_since (world_after (trial_complex clk N) i w0)
      (world_after (trial_complex clk N) (i + 1) w0)) ∧
    balanced (events_since (world_after (trial_real clk N) i w0)
      (world_after (trial_real clk N) (i + 1) w0)) ∧
    (live_buffers w0.trace = [] ∧ live_plans w0.trace = [] →
      (live_buffers (world_after (trial_complex clk N) (i + 1) w0).trace).length = 0 ∧
      (live_plans (world_after (trial_complex clk N) (i + 1) w0).trace).length = 0 ∧
      (live_buffers (world_after (trial_real clk N) (i + 1) w0).trace).length = 0 ∧
      (live_plans (world_after (trial_real clk N) (i + 1) w0).trace).length = 0) := by
  refine ⟨trial_complex_balanced clk N _, trial_real_balanced clk N _, ?_⟩
  rintro ⟨hb, hp⟩
  have hc := world_after_live (trial_complex clk N) (trial_complex_live clk N) w0 hb hp (i + 1)
  have hr := world_after_live (trial_real clk N) (trial_real_live clk N) w0 hb hp (i + 1)
  rw [hc.1, hc.2, hr.1, hr.2]
  exact ⟨rfl, rfl, rfl, rfl⟩

/-- Counting the calls of one kind over `k` trials. -/
theorem world_after_count (T : World → Trial) (p : Event → Bool) (c : Nat)
    (hT : ∀ w, ∃ seg, (T w).w.trace = w.trace ++ seg ∧ seg.countP p = c)
    (k : Nat) (w : World) :
    ∃ seg, (world_after T k w).trace = w.trace ++ seg ∧ seg.countP p = k * c := by
  induction k with
  | zero => exact ⟨[], by simp [world_after], by simp⟩
  | succ k ih =>
    obtain ⟨seg, h1, h2⟩ := ih
    obtain ⟨seg2, h3, h4⟩ := hT (world_after T k w)
    refine ⟨seg ++ seg2, ?_, ?_⟩
    · show (T (world_after T k w)).w.trace = _
      rw [h3, h1, List.append_assoc]
    · rw [List.countP_append, h2, h4]
      ring

theorem count_since (T : World → Trial) (p : Event → Bool) (c : Nat)
    (hT : ∀ w, ∃ seg, (T w).w.trace = w.trace ++ seg ∧ seg.countP p = c)
    (k : Nat) (w w2 : World) (h2 : w2.trace = (world_after T k w).trace) :
    (events_since w w2).countP p = k * c := by
  obtain ⟨seg, h1, h3⟩ := world_after_count T p c hT k w
  rw [events_since_append w w2 seg (h2.trans h1), h3]

/-- Witness of C4: the first trial of a run that starts in the empty
environment. -/
theorem no_leak_per_trial_witness :
    (live_buffers (world_after (trial_complex (fun _ => ⟨0, 0⟩) 100) (0 + 1)
      World.start).trace).length = 0 ∧
    (live_plans (world_after (trial_complex (fun _ => ⟨0, 0⟩) 100) (0 + 1)
      World.start).trace).length = 0 ∧
    (live_buffers (world_after (trial_real (fun _ => ⟨0, 0⟩) 100) (0 + 1)
      World.start).trace).length = 0 ∧
    (live_plans (world_after (trial_real (fun _ => ⟨0, 0⟩) 100) (0 + 1)
      World.start).trace).length = 0 :=
  (no_leak_per_trial (fun _ => ⟨0, 0⟩) 100 World.start 0).2.2 ⟨rfl, rfl⟩

/-- Calls of each kind made by the trial loop of `bench_complex`. -/
theorem complex_counts (clk : Clock) (N : Nat) (w w2 : World)
    (h2 : w2.trace = (world_after (trial_complex clk N) 1000 w).trace) :
    (events_since w w2).countP Event.is_alloc = 2000 ∧
    (events_since w w2).countP Event.is_plan = 1000 ∧
    (events_since w w2).countP Event.is_execute = 1000 ∧
    (events_since w w2).countP Event.is_destroy = 1000 ∧
    (events_since w w2).countP Event.is_free = 2000 ∧
    (events_since w w2).countP Event.is_clock = 3000 := by
  refine ⟨?_, ?_, ?_, ?_, ?_, ?_⟩
  · exact count_since _ _ 2 (fun w => ⟨_, trial_complex_trace clk N w,
      by simp [Event.is_alloc]⟩) 1000 w w2 h2
  · exact count_since _ _ 1 (fun w => ⟨_, trial_complex_trace clk N w,
      by simp [Event.is_plan]⟩) 1000 w w2 h2
  · exact count_since _ _ 1 (fun w => ⟨_, trial_complex_trace clk N w,
      by simp [Event.is_execute]⟩) 1000 w w2 h2
  · exact count_since _ _ 1 (fun w => ⟨_, trial_complex_trace clk N w,
      by simp [Event.is_destroy]⟩) 1000 w w2 h2
  · exact count_since _ _ 2 (fun w => ⟨_, trial_complex_trace clk N w,
      by simp [Event.is_free]⟩) 1000 w w2 h2
  · exact count_since _ _ 3 (fun w => ⟨_, trial_complex_trace clk N w,
      by simp [Event.is_clock]⟩) 1000 w w2 h2

/-- Calls of each kind made by the trial loop of `bench_real`. -/
theorem real_counts (clk : Clock) (N : Nat) (w w2 : World)
    (h2 : w2.trace = (world_after (trial_real clk N) 1000 w).trace) :
    (events_since w w2).countP Event.is_alloc = 2000 ∧
    (events_since w w2).countP Event.is_plan = 1000 ∧
    (events_since w w2).countP Event.is_execute = 1000 ∧
    (events_since w w2).countP Event.is_destroy = 1000 ∧
    (events_since w w2).countP Event.is_free = 2000 ∧
    (events_since w w2).countP Event.is_clock = 3000 := by
  refine ⟨?_, ?_, ?_, ?_, ?_, ?_⟩
  · exact count_since _ _ 2 (fun w => ⟨_, trial_real_trace clk N w,
      by simp [Event.is_alloc]⟩) 1000 w w2 h2
  · exact count_since _ _ 1 (fun w => ⟨_, trial_real_trace clk N w,
      by simp [Event.is_plan]⟩) 1000 w w2 h2
  · exact count_since _ _ 1 (fun w => ⟨_, trial_real_trace clk N w,
      by simp [Event.is_execute]⟩) 1000 w w2 h2
  · exact count_since _ _ 1 (fun w => ⟨_, trial_real_trace clk N w,
      by simp [Event.is_destroy]⟩) 1000 w w2 h2
  · exact count_since _ _ 2 (fun w => ⟨_, trial_real_trace clk N w,
      by simp [Event.is_free]⟩) 1000 w w2 h2
  · exact count_since _ _ 3 (fun w => ⟨_, trial_real_trace clk N w,
      by simp [Event.is_clock]⟩) 1000 w w2 h2

/-- C5. For every size `N`, one call of `bench_complex(N)` or `bench_real(N)`
makes, after the calls that preceded it, exactly 1000 plan constructions, 1000
executions and 1000 plan destructions (with 2000 allocations, 2000 releases
and 3000 clock readings), and each running average is the result of exactly
1000 updates, with the trial indices 0..999 in order, on the samples of the
1000 trials. -/
theorem exactly_1000_trials (clk : Clock) (rnd : Rand) (g : Int) (N : Nat) (w : World) :
    ((events_since w (bench_complex clk rnd g N w)).countP Event.is_alloc = 2000 ∧
      (events_since w (bench_complex clk rnd g N w)).countP Event.is_plan = 1000 ∧
      (events_since w (bench_complex clk rnd g N w)).countP Event.is_execute = 1000 ∧
      (events_since w (bench_complex clk rnd g N w)).countP Event.is_destroy = 1000 ∧
      (events_since w (bench_complex clk rnd g N w)).countP Event.is_free = 2000 ∧
      (events_since w (bench_complex clk rnd g N w)).countP Event.is_clock = 3000) ∧
    ((events_since w (bench_real clk rnd g N w)).countP Event.is_alloc = 2000 ∧
      (events_since w (bench_real clk rnd g N w)).countP Event.is_plan = 1000 ∧
      (events_since w (bench_real clk rnd g N w)).countP Event.is_execute = 1000 ∧
      (events_since w (bench_real clk rnd g N w)).countP Event.is_destroy = 1000 ∧
      (events_since w (bench_real clk rnd g N w)).countP Event.is_free = 2000 ∧
      (events_since w (bench_real clk rnd g N w)).countP Event.is_clock = 3000) ∧
    ((loop_complex clk g N w).time_ini
        = run_avg 0 g ((trials (trial_complex clk N) 1000 w).map Trial.ini_sample) ∧
      (loop_complex clk g N w).time_exec
        = run_avg 0 0 ((trials (trial_complex clk N) 1000 w).map Trial.exec_sample) ∧
      (loop_real clk g N w).time_ini
        = run_avg 0 g ((trials (trial_real clk N) 1000 w).map Trial.ini_sample) ∧
      (loop_real clk g N w).time_exec
        = run_avg 0 0 ((trials (trial_real clk N) 1000 w).map Trial.exec_sample) ∧
      (trials (trial_complex clk N) 1000 w).length = 1000 ∧
      (trials (trial_real clk N) 1000 w).length = 1000) := by
  refine ⟨?_, ?_, ?_⟩
  · have h := complex_counts clk N (fill_complex rnd N w).w (bench_complex clk rnd g N w)
      (bench_complex_eq clk rnd g N w).2
    unfold events_since at *
    rw [(fill_complex_world rnd N w).1] at h
    exact h
  · have h := real_counts clk N (fill_real rnd N w).w (bench_real clk rnd g N w)
      (bench_real_eq clk rnd g N w).2
    unfold events_since at *
    rw [(fill_real_world rnd N w).1] at h
    exact h
  · refine ⟨?_, ?_, ?_, ?_, ?_, ?_⟩
    · rw [loop_complex_eq]
    · rw [loop_complex_eq]
    · rw [loop_real_eq]
    · rw [loop_real_eq]
    · exact trials_length (trial_complex clk N) 1000 w
    · exact trials_length (trial_real clk N) 1000 w

theorem for_loop_ind {σ : Type} (P : Nat → σ → Prop) (body : Nat → σ → σ) (s : σ) (n : Nat)
    (h0 : P 0 s) (hstep : ∀ i s, i < n → P i s → P (i + 1) (body i s)) :
    P n (for_loop body n s) := by
  have h : ∀ m, m ≤ n → P m (for_loop body m s) := by
    intro m
    induction m with
    | zero => exact fun _ => h0
    | succ m ih =>
      intro hm
      rw [for_loop_succ]
      exact hstep m _ (by omega) (ih (by omega))
  exact h n le_rfl

/-- The values stored lie in `[-100, 100)` when the draw lies in `[0, 1)`. -/
theorem draw_sample_range (rnd : Rand) (w : World) (h0 : 0 ≤ rnd w.draws)
    (h1 : rnd w.draws < 1) :
    -100 ≤ (draw_sample rnd w).1 ∧ (draw_sample rnd w).1 < 100 := by
  unfold draw_sample
  constructor <;> linarith

/-- State of the array of `bench_complex` after `i` iterations of the
generation loop: the flat slots from `i + 2` on are still unassigned, and the
flat slots `0..i-1` and `2..i+1` that exist hold a value `200*(r - 0.5)`. -/
theorem fill_complex_slots (rnd : Rand) (N : Nat) (w : World) :
    (fill_complex rnd N w).input.length = 2 * N ∧
    (∀ k, N + 2 ≤ k → (fill_complex rnd N w).input[k]?
      = (List.replicate (2 * N) (none : Option ℚ))[k]?) ∧
    (∀ k, k < 2 * N → (k < N ∨ (2 ≤ k ∧ k < N + 2)) →
      ∃ d, (fill_complex rnd N w).input[k]? = some (some (200 * (rnd d - 1 / 2)))) := by
  unfold fill_complex
  apply for_loop_ind (fun i (s : Filling) =>
    s.input.length = 2 * N ∧
    (∀ k, i + 2 ≤ k → s.input[k]? = (List.replicate (2 * N) (none : Option ℚ))[k]?) ∧
    (∀ k, k < 2 * N → (k < i ∨ (2 ≤ k ∧ k < i + 2)) →
      ∃ d, s.input[k]? = some (some (200 * (rnd d - 1 / 2)))))
  · refine ⟨by simp, fun k _ => rfl, ?_⟩
    intro k _ h
    omega
  · rintro i s _ ⟨hl, hu, ha⟩
    simp only [draw_sample, store, List.length_set]
    refine ⟨hl, ?_, ?_⟩
    · intro k hk
      rw [List.getElem?_set_ne (by omega), List.getElem?_set_ne (by omega)]
      exact hu k (by omega)
    · intro k hk2 hk
      by_cases e1 : k = 2 * 1 + i
      · subst e1
        exact ⟨_, List.getElem?_set_self (by rw [List.length_set]; omega)⟩
      · rw [List.getElem?_set_ne (fun h => e1 h.symm)]
        by_cases e0 : k = 2 * 0 + i
        · subst e0
          exact ⟨_, List.getElem?_set_self (by omega)⟩
        · rw [List.getElem?_set_ne (fun h => e0 h.symm)]
          exact ha k hk2 (by omega)

/-- The generation loop of `bench_real` assigns every one of the `N` slots,
slot `k` from the `k`-th draw of the loop. -/
theorem fill_real_slots (rnd : Rand) (N : Nat) (w : World) :
    (fill_real rnd N w).input.length = N ∧
    ∀ k, k < N →
      (fill_real rnd N w).input[k]? = some (some (200 * (rnd (w.draws + k) - 1 / 2))) := by
  have h : (fill_real rnd N w).input.length = N ∧ (fill_real rnd N w).w.draws = w.draws + N ∧
      ∀ k, k < N →
        (fill_real rnd N w).input[k]? = some (some (200 * (rnd (w.draws + k) - 1 / 2))) := by
    unfold fill_real
    apply for_loop_ind (fun i (s : Filling) =>
      s.input.length = N ∧ s.w.draws = w.draws + i ∧
      ∀ k, k < i → s.input[k]? = some (some (200 * (rnd (w.draws + k) - 1 / 2))))
    · refine ⟨by simp, rfl, ?_⟩
      intro k h
      omega
    · rintro i s hi ⟨hl, hd, ha⟩
      simp only [draw_sample, store, List.length_set]
      refine ⟨hl, by omega, ?_⟩
      intro k hk
      by_cases e : k = i
      · subst e
        rw [hd]
        exact List.getElem?_set_self (by omega)
      · rw [List.getElem?_set_ne (fun h => e h.symm)]
        exact ha k (by omega)
  exact ⟨h.1, h.2.2⟩

/-- C3, evaluated on the code. The generation loop of `bench_real` assigns
each of the `N` slots a value `200*(r - 0.5)` from its own draw, in
`[-100, 100)` for draws in `[0, 1)`. The loop of `bench_complex` stores to
`input[0][i]` and `input[1][i]`, the flat slots `i` and `2 + i`, so of the
`2*N` slots of `input[N][2]` those from `N + 2` on are never assigned: for
`N = 100`, the size of the first call in `main`, the 98 slots `102..199`
(the samples 51..99) are left unassigned. -/
theorem input_population (rnd : Rand) (N : Nat) (w : World) :
    ((fill_real rnd N w).input.length = N ∧
      ∀ k, k < N → ∃ v : ℚ, (fill_real rnd N w).input[k]? = some (some v) ∧
        v = 200 * (rnd (w.draws + k) - 1 / 2) ∧
        (0 ≤ rnd (w.draws + k) ∧ rnd (w.draws + k) < 1 → -100 ≤ v ∧ v < 100)) ∧
    ((fill_complex rnd N w).input.length = 2 * N ∧
      (fill_complex rnd N w).input.drop (N + 2) = List.replicate (N - 2) none) ∧
    ((fill_complex rnd 100 w).input.length = 200 ∧
      (fill_complex rnd 100 w).input.drop 102 = List.replicate 98 none) := by
  have key : ∀ M : Nat, (fill_complex rnd M w).input.length = 2 * M ∧
      (fill_complex rnd M w).input.drop (M + 2) = List.replicate (M - 2) none := by
    intro M
    obtain ⟨hl, hu, _⟩ := fill_complex_slots rnd M w
    refine ⟨hl, List.ext_getElem? ?_⟩
    intro n
    rw [List.getElem?_drop, hu (M + 2 + n) (by omega), List.getElem?_replicate,
      List.getElem?_replicate]
    by_cases h : n < M - 2
    · rw [if_pos h, if_pos (by omega)]
    · rw [if_neg h, if_neg (by omega)]
  refine ⟨⟨(fill_real_slots rnd N w).1, ?_⟩, key N, key 100⟩
  intro k hk
  refine ⟨_, (fill_real_slots rnd N w).2 k hk, rfl, ?_⟩
  rintro ⟨h0, h1⟩
  exact draw_sample_range rnd { w with draws := w.draws + k } h0 h1

theorem reading_clock_wrap (r : Nat → Int) (h : List Event) :
    sclock_value (reading_clock r h) = wrap64 (r (h.countP Event.is_clock)) := by
  unfold reading_clock
  exact sclock_value_timespec_of_ns _

theorem reading_clock_value (r : Nat → Int)
    (hr : ∀ k, CLOCK_T_MIN ≤ r k ∧ r k ≤ CLOCK_T_MAX) (h : List Event) :
    sclock_value (reading_clock r h) = r (h.countP Event.is_clock) := by
  rw [reading_clock_wrap]
  exact wrap64_of_range (hr _).1 (hr _).2

theorem reading_clock_mono (r : Nat → Int) (hr : ∀ k, CLOCK_T_MIN ≤ r k ∧ r k ≤ CLOCK_T_MAX)
    (hmono : ∀ k, r k ≤ r (k + 1)) (h l : List Event) :
    sclock_value (reading_clock r h) ≤ sclock_value (reading_clock r (h ++ l)) := by
  rw [reading_clock_value r hr, reading_clock_value r hr, List.countP_append]
  exact monotone_nat_of_le_succ hmono (Nat.le_add_right _ _)

theorem reading_clock_span (r : Nat → Int) (hr : ∀ k, CLOCK_T_MIN ≤ r k ∧ r k ≤ CLOCK_T_MAX)
    (hmono : ∀ k, r k ≤ r (k + 1)) (hspan : ∀ k, r k - r 0 ≤ CLOCK_T_MAX)
    (h l : List Event) :
    sclock_value (reading_clock r (h ++ l)) - sclock_value (reading_clock r h)
      ≤ CLOCK_T_MAX := by
  rw [reading_clock_value r hr, reading_clock_value r hr]
  have h0 : r 0 ≤ r (h.countP Event.is_clock) :=
    monotone_nat_of_le_succ hmono (Nat.zero_le _)
  have h1 := hspan ((h ++ l).countP Event.is_clock)
  omega

/-- C6, amended. For every sequence `r` of clock readings (`clock_t` values)
that never decreases and spans at most `CLOCK_T_MAX` nanoseconds
(`r k - r 0 ≤ 2^63 - 1` for every `k`), `main` returns 0 and emits exactly four
lines, for (complex, 100), (complex, 10000), (real, 100), (real, 10000) in
this order, each of the form `n=<N>, <kind>, init: <v>ms, exec: <v>ms` with
non-negative values. -/
theorem report_lines (r : Nat → Int) (rnd : Rand) (g : Fin 4 → Int)
    (hr : ∀ k, CLOCK_T_MIN ≤ r k ∧ r k ≤ CLOCK_T_MAX) (hmono : ∀ k, r k ≤ r (k + 1))
    (hspan : ∀ k, r k - r 0 ≤ CLOCK_T_MAX) :
    (main (reading_clock r) rnd g).1 = 0 ∧
    ∃ i1 e1 i2 e2 i3 e3 i4 e4 : ℚ,
      (0 ≤ i1 ∧ 0 ≤ e1 ∧ 0 ≤ i2 ∧ 0 ≤ e2 ∧ 0 ≤ i3 ∧ 0 ≤ e3 ∧ 0 ≤ i4 ∧ 0 ≤ e4) ∧
      (main (reading_clock r) rnd g).2.out =
        [{ n := 100, kind := "complex", init := i1, exec := e1 },
         { n := 10000, kind := "complex", init := i2, exec := e2 },
         { n := 100, kind := "real", init := i3, exec := e3 },
         { n := 10000, kind := "real", init := i4, exec := e4 }] ∧
      (main (reading_clock r) rnd g).2.out.map render =
        ["n=100, complex, init: " ++ fmt_f i1 ++ "ms, exec: " ++ fmt_f e1 ++ "ms\n",
         "n=10000, complex, init: " ++ fmt_f i2 ++ "ms, exec: " ++ fmt_f e2 ++ "ms\n",
         "n=100, real, init: " ++ fmt_f i3 ++ "ms, exec: " ++ fmt_f e3 ++ "ms\n",
         "n=10000, real, init: " ++ fmt_f i4 ++ "ms, exec: " ++ fmt_f e4 ++ "ms\n"] := by
  have hm := reading_clock_mono r hr hmono
  have hsp := reading_clock_span r hr hmono hspan
  have nc := fun (N : Nat) (w : World) (g e : Int) =>
    timers_nonneg (reading_clock r) (trial_complex (reading_clock r) N)
      (trial_complex_shape _ N) hm hsp w g e 999
  have nr := fun (N : Nat) (w : World) (g e : Int) =>
    timers_nonneg (reading_clock r) (trial_real (reading_clock r) N)
      (trial_real_shape _ N) hm hsp w g e 999
  refine ⟨rfl, ?_⟩
  unfold main
  simp only [bench_complex_eq, bench_real_eq]
  refine ⟨_, _, _, _, _, _, _, _, ⟨?_, ?_, ?_, ?_, ?_, ?_, ?_, ?_⟩, rfl, ?_⟩
  · exact reported_nonneg (nc _ _ _ 0).1
  · exact reported_nonneg (nc _ _ 0 _).2
  · exact reported_nonneg (nc _ _ _ 0).1
  · exact reported_nonneg (nc _ _ 0 _).2
  · exact reported_nonneg (nr _ _ _ 0).1
  · exact reported_nonneg (nr _ _ 0 _).2
  · exact reported_nonneg (nr _ _ _ 0).1
  · exact reported_nonneg (nr _ _ 0 _).2
  · have p1 : "n=" ++ fmt_u 100 ++ ", " ++ "complex" ++ ", init: " = "n=100, complex, init: " := by
      decide
    have p2 : "n=" ++ fmt_u 10000 ++ ", " ++ "complex" ++ ", init: "
        = "n=10000, complex, init: " := by decide
    have p3 : "n=" ++ fmt_u 100 ++ ", " ++ "real" ++ ", init: " = "n=100, real, init: " := by
      decide
    have p4 : "n=" ++ fmt_u 10000 ++ ", " ++ "real" ++ ", init: " = "n=10000, real, init: " := by
      decide
    simp only [World.start, List.nil_append, List.cons_append, List.map_cons, List.map_nil,
      render_eq, p1, p2, p3, p4]

/-- Witness of C6, amended: readings that start at -50000 ns and rise by 1 ns
per call up to 50000 ns. -/
theorem report_lines_witness :
    (main (reading_clock (fun k => ((min k 100000 : Nat) : Int) - 50000)) (fun _ => 0)
      (fun _ => 0)).1 = 0 ∧
    ∃ i1 e1 i2 e2 i3 e3 i4 e4 : ℚ,
      (0 ≤ i1 ∧ 0 ≤ e1 ∧ 0 ≤ i2 ∧ 0 ≤ e2 ∧ 0 ≤ i3 ∧ 0 ≤ e3 ∧ 0 ≤ i4 ∧ 0 ≤ e4) ∧
      (main (reading_clock (fun k => ((min k 100000 : Nat) : Int) - 50000)) (fun _ => 0)
        (fun _ => 0)).2.out =
        [{ n := 100, kind := "complex", init := i1, exec := e1 },
         { n := 10000, kind := "complex", init := i2, exec := e2 },
         { n := 100, kind := "real", init := i3, exec := e3 },
         { n := 10000, kind := "real", init := i4, exec := e4 }] ∧
      (main (reading_clock (fun k => ((min k 100000 : Nat) : Int) - 50000)) (fun _ => 0)
        (fun _ => 0)).2.out.map render =
        ["n=100, complex, init: " ++ fmt_f i1 ++ "ms, exec: " ++ fmt_f e1 ++ "ms\n",
         "n=10000, complex, init: " ++ fmt_f i2 ++ "ms, exec: " ++ fmt_f e2 ++ "ms\n",
         "n=100, real, init: " ++ fmt_f i3 ++ "ms, exec: " ++ fmt_f e3 ++ "ms\n",
         "n=10000, real, init: " ++ fmt_f i4 ++ "ms, exec: " ++ fmt_f e4 ++ "ms\n"] :=
  report_lines (fun k => ((min k 100000 : Nat) : Int) - 50000) (fun _ => 0) (fun _ => 0)
    (fun k => by
      simp only [CLOCK_T_MIN, CLOCK_T_MAX]
      omega)
    (fun k => by
      simp only
      omega)
    (fun k => by
      simp only [CLOCK_T_MAX]
      omega)

/-- Clock calls made up to the start of trial `k` of `bench_complex`. -/
theorem clock_count_complex (clk : Clock) (N : Nat) (k : Nat) (w : World) :
    (world_after (trial_complex clk N) k w).trace.countP Event.is_clock
      = w.trace.countP Event.is_clock + k * 3 := by
  obtain ⟨seg, h1, h2⟩ := world_after_count (trial_complex clk N) Event.is_clock 3
    (fun w => ⟨_, trial_complex_trace clk N w, by simp [Event.is_clock]⟩) k w
  rw [h1, List.countP_append, h2]

/-- Samples of one trial of `bench_complex` when the clock delivers the
readings `r 0, r 1, ...` and `c` readings were taken before the trial. -/
theorem trial_complex_reading_samples (r : Nat → Int) (N : Nat) (w : World) :
    (trial_complex (reading_clock r) N w).ini_sample
      = wrap64 (r (w.trace.countP Event.is_clock + 1) - r (w.trace.countP Event.is_clock)) ∧
    (trial_complex (reading_clock r) N w).exec_sample
      = wrap64 (r (w.trace.countP Event.is_clock + 2)
          - r (w.trace.countP Event.is_clock + 1)) := by
  obtain ⟨h1, h2, h3⟩ := trial_complex_readings (reading_clock r) N w
  unfold Trial.ini_sample Trial.exec_sample
  rw [h1, h2, h3]
  simp [reading_clock_wrap, wrap64_sub_wrap64, List.countP_append, Event.is_clock]

/-- The line the first experiment of `main` prints under the readings
`late_jump`: the first 999 trials measure 0 and 0, the last one measures
`0 - CLOCK_T_MIN`, which wraps to `CLOCK_T_MIN`, and 0. -/
theorem late_jump_first_line (rnd : Rand) (g : Int) :
    (bench_complex (reading_clock late_jump) rnd g 100 World.start).out
      = [{ n := 100, kind := "complex", init := reported (-9223372036854775),
           exec := reported 0 }] := by
  have hw0 : (fill_complex rnd 100 World.start).w.trace.countP Event.is_clock = 0 := by
    rw [(fill_complex_world rnd 100 World.start).1]
    rfl
  have hs : ∀ i, i < 999 →
      (trial_complex (reading_clock late_jump) 100
        (world_after (trial_complex (reading_clock late_jump) 100) i
          (fill_complex rnd 100 World.start).w)).ini_sample = 0 ∧
      (trial_complex (reading_clock late_jump) 100
        (world_after (trial_complex (reading_clock late_jump) 100) i
          (fill_complex rnd 100 World.start).w)).exec_sample = 0 := by
    intro i hi
    obtain ⟨h1, h2⟩ := trial_complex_reading_samples late_jump 100
      (world_after (trial_complex (reading_clock late_jump) 100) i
        (fill_complex rnd 100 World.start).w)
    rw [h1, h2, clock_count_complex, hw0]
    unfold late_jump
    rw [if_pos (by omega), if_pos (by omega), if_pos (by omega)]
    exact ⟨by decide, by decide⟩
  have hl :
      (trial_complex (reading_clock late_jump) 100
        (world_after (trial_complex (reading_clock late_jump) 100) 999
          (fill_complex rnd 100 World.start).w)).ini_sample = -9223372036854775808 ∧
      (trial_complex (reading_clock late_jump) 100
        (world_after (trial_complex (reading_clock late_jump) 100) 999
          (fill_complex rnd 100 World.start).w)).exec_sample = 0 := by
    obtain ⟨h1, h2⟩ := trial_complex_reading_samples late_jump 100
      (world_after (trial_complex (reading_clock late_jump) 100) 999
        (fill_complex rnd 100 World.start).w)
    rw [h1, h2, clock_count_complex, hw0]
    exact ⟨by decide, by decide⟩
  have hsplit : trials (trial_complex (reading_clock late_jump) 100) 1000
        (fill_complex rnd 100 World.start).w
      = trials (trial_complex (reading_clock late_jump) 100) 999
          (fill_complex rnd 100 World.start).w
        ++ [trial_complex (reading_clock late_jump) 100
          (world_after (trial_complex (reading_clock late_jump) 100) 999
            (fill_complex rnd 100 World.start).w)] :=
    trials_succ _ 999 _
  have z1 : ∀ s ∈ (trials (trial_complex (reading_clock late_jump) 100) 999
      (fill_complex rnd 100 World.start).w).map Trial.ini_sample, s = 0 := by
    intro s hs'
    simp only [trials, List.map_map, List.mem_map, List.mem_range] at hs'
    obtain ⟨i, hi, rfl⟩ := hs'
    exact (hs i hi).1
  have z2 : ∀ s ∈ (trials (trial_complex (reading_clock late_jump) 100) 999
      (fill_complex rnd 100 World.start).w).map Trial.exec_sample, s = 0 := by
    intro s hs'
    simp only [trials, List.map_map, List.mem_map, List.mem_range] at hs'
    obtain ⟨i, hi, rfl⟩ := hs'
    exact (hs i hi).2
  have l1 : ((trials (trial_complex (reading_clock late_jump) 100) 999
      (fill_complex rnd 100 World.start).w).map Trial.ini_sample).length = 999 := by
    rw [List.length_map, trials_length]
  have l2 : ((trials (trial_complex (reading_clock late_jump) 100) 999
      (fill_complex rnd 100 World.start).w).map Trial.exec_sample).length = 999 := by
    rw [List.length_map, trials_length]
  have hmax : (0 : Int) ≤ CLOCK_T_MAX := by decide
  have a1 := run_avg_const g 0 _ (List.length_pos.mp (by rw [l1]; decide)) z1 le_rfl
    (by rw [List.sum_eq_zero z1]; exact hmax)
  have a2 := run_avg_const 0 0 _ (List.length_pos.mp (by rw [l2]; decide)) z2 le_rfl
    (by rw [List.sum_eq_zero z2]; exact hmax)
  have u1 : avg_update 999 0 (-9223372036854775808) = -9223372036854775 := by decide
  have u2 : avg_update 999 0 0 = 0 := by decide
  rw [(bench_complex_eq _ rnd g 100 World.start).1, hsplit]
  simp only [List.map_append, List.map_singleton, run_avg_append, l1, l2, Nat.zero_add, a1, a2,
    hl.1, hl.2, u1, u2]
  rfl

/-- C6 as stated fails. The readings `late_jump` are `clock_t` values and
never decrease, yet the first line `main` prints reports a negative init
value: the last trial of `bench_complex(100)` reads `start = -2^63` and
`t1 = 0`, the sample `t1 - start = 2^63` wraps to `-2^63`, and
`(999*0 + -2^63)/1000 = -9223372036854775`, reported as
`-9223372036854.775000`. -/
theorem report_lines_counterexample :
    (∀ k, CLOCK_T_MIN ≤ late_jump k ∧ late_jump k ≤ CLOCK_T_MAX) ∧
    (∀ k, late_jump k ≤ late_jump (k + 1)) ∧
    (main (reading_clock late_jump) (fun _ => 0) (fun _ => 0)).2.out.head?
      = some { n := 100, kind := "complex", init := reported (-9223372036854775),
               exec := reported 0 } ∧
    reported (-9223372036854775) = -9223372036854775 / 1000 ∧
    reported (-9223372036854775) < 0 ∧
    render { n := 100, kind := "complex", init := reported (-9223372036854775),
             exec := reported 0 }
      = "n=100, complex, init: -9223372036854.775000ms, exec: 0.000000ms\n" := by
  refine ⟨?_, ?_, ?_, ?_, ?_, ?_⟩
  · intro k
    unfold late_jump CLOCK_T_MIN CLOCK_T_MAX
    split <;> omega
  · intro k
    unfold late_jump
    split <;> split <;> omega
  · have h1 := late_jump_first_line (fun _ => 0) 0
    unfold main
    dsimp only
    rw [(bench_real_eq _ _ _ _ _).1, (bench_real_eq _ _ _ _ _).1,
      (bench_complex_eq _ _ _ 10000 _).1, h1]
    rfl
  · norm_num [reported]
  · norm_num [reported]
  · have e1 : reported (-9223372036854775) = mkRat (-9223372036854775) 1000 := by
      simp [reported, Rat.mkRat_eq_div]
    have e2 : reported 0 = 0 := by simp [reported]
    rw [e1, e2]
    decide

end FftwBench
